import Mathlib

/-!
Verification development for a SAT-based Sudoku solver (`Question1/q1.py`)
and a SAT-based Sokoban planner (`Question2/q2.py`).

The Python code is shallowly embedded: pure arithmetic functions become Lean
functions on `Nat`, clause lists become `List (List Int)` in the emission
order of the source, a SAT model is abstracted as an assignment
`Nat → Bool` (the PySAT model list `model` satisfies `model[v-1] > 0` iff
variable `v` is assigned true), and Python functions that may raise are
embedded as `Option`-valued functions (`none` = raised).
-/

/-! ## CNF satisfaction -/

/-- A literal is satisfied: positive literal `v` iff variable `v` is true,
negative literal `-v` iff variable `v` is false (PySAT sign convention). -/
def satLit (a : Nat → Bool) (l : Int) : Bool :=
  if 0 < l then a l.toNat else !a (-l).toNat

/-- A clause (disjunction) is satisfied. -/
def satClause (a : Nat → Bool) (c : List Int) : Bool := c.any (satLit a)

/-- A CNF (conjunction of clauses) is satisfied. -/
def satCNF (a : Nat → Bool) (f : List (List Int)) : Bool := f.all (satClause a)

/-- The repeated pattern `for i in range(len(lits)): for j in range(i+1,
len(lits)): clauses.append([-lits[i], -lits[j]])` (cell exclusivity in
`q1.py`; action and position exclusivity in `q2.py`). -/
def pairwise_neg (lits : List Int) : List (List Int) :=
  (List.range lits.length).flatMap fun i =>
    (List.range' (i + 1) (lits.length - (i + 1))).map fun j =>
      [-(lits.getD i 0), -(lits.getD j 0)]

/-! ## Sudoku (`q1.py`) -/

namespace Sudoku

/-- `q1.py` lines 17-18: `prop(row, col, num) = (row * n + col) * n + num`. -/
def prop (n row col num : Nat) : Nat := (row * n + col) * n + num

/-- The result of a call to `prop`: the Python function performs no bounds
check (no `assert`), so every call returns normally with the arithmetic
value; no argument makes it raise. -/
def propCall (n row col num : Nat) : Option Nat := some (prop n row col num)

/-- Read cell `(r, c)` of a grid, defaulting to `0` out of range. -/
def cellAt (g : List (List Nat)) (r c : Nat) : Nat := (g.getD r []).getD c 0

/-- `q1.py` lines 33-39: per-cell totality clause followed by the pairwise
exclusivity clauses of that cell. -/
def cellClauses (n : Nat) : List (List Int) :=
  (List.range n).flatMap fun r =>
    (List.range n).flatMap fun c =>
      ((List.range' 1 n).map fun num => (prop n r c num : Int)) ::
        pairwise_neg ((List.range' 1 n).map fun num => (prop n r c num : Int))

/-- `q1.py` lines 42-46: for each row and value, at least one cell of the row
holds the value. -/
def rowClauses (n : Nat) : List (List Int) :=
  (List.range n).flatMap fun r =>
    (List.range' 1 n).map fun num =>
      (List.range n).map fun c => (prop n r c num : Int)

/-- `q1.py` lines 48-52: for each column and value, at least one cell of the
column holds the value. -/
def colClauses (n : Nat) : List (List Int) :=
  (List.range n).flatMap fun c =>
    (List.range' 1 n).map fun num =>
      (List.range n).map fun r => (prop n r c num : Int)

/-- The block start offsets `range(0, n, sub_n)` of `q1.py` line 55 (for
`sub_n = 0` Python raises; the claims below always have `1 ≤ sub_n`). -/
def blockStarts (n s : Nat) : List Nat :=
  (List.range ((n + s - 1) / s)).map (· * s)

/-- `q1.py` lines 54-61: for each subgrid and value, at least one cell of the
subgrid holds the value. -/
def subgridClauses (n s : Nat) : List (List Int) :=
  (blockStarts n s).flatMap fun br =>
    (blockStarts n s).flatMap fun bc =>
      (List.range' 1 n).map fun num =>
        (List.range' br s).flatMap fun r =>
          (List.range' bc s).map fun c => (prop n r c num : Int)

/-- `q1.py` lines 64-67: one unit clause per pre-filled (non-zero) cell. -/
def givenClauses (g : List (List Nat)) (n : Nat) : List (List Int) :=
  (List.range n).flatMap fun r =>
    (List.range n).flatMap fun c =>
      if cellAt g r c ≠ 0 then [[(prop n r c (cellAt g r c) : Int)]] else []

/-- The full CNF built by `solve_sudoku` (`q1.py` lines 20-67), with
`n = len(grid)` and `sub_n = int(n ** 0.5) = Nat.sqrt n`. -/
def sudoku_cnf (g : List (List Nat)) : List (List Int) :=
  cellClauses g.length ++ rowClauses g.length ++ colClauses g.length ++
    subgridClauses g.length (Nat.sqrt g.length) ++ givenClauses g g.length

/-- One step of the decoding loop (`q1.py` lines 74-79) for cell `(r, c)`:
the first value in `1..n` whose variable is true in the model, or the
original cell value if none is (the loop then never writes the cell). -/
def decodeCell (n : Nat) (a : Nat → Bool) (r c orig : Nat) : Nat :=
  match (List.range' 1 n).find? (fun num => a (prop n r c num)) with
  | some v => v
  | none => orig

/-- The grid after the decoding loop has run: cells `(r, c)` with
`r, c < n` are overwritten by `decodeCell`, everything else untouched.
Because `solution = grid` in `q1.py` line 70 aliases the argument, this is
simultaneously the returned solution and the caller's grid object. -/
def decodeGrid (g : List (List Nat)) (a : Nat → Bool) : List (List Nat) :=
  g.mapIdx fun r row =>
    row.mapIdx fun c orig =>
      if c < g.length then decodeCell g.length a r c orig else orig

/-- `solve_sudoku` with the SAT oracle abstracted: `oracle = none` models an
UNSAT verdict, `oracle = some a` a SAT verdict with model `a`.  The first
component is the state of the caller's grid argument after the call, the
second the returned solution; they are the same object because of the
aliasing `solution = grid` (`q1.py` line 70). -/
def solve_sudoku (g : List (List Nat)) (oracle : Option (Nat → Bool)) :
    List (List Nat) × List (List Nat) :=
  match oracle with
  | some a => (decodeGrid g a, decodeGrid g a)
  | none => (g, g)

end Sudoku

/-! ## Sokoban (`q2.py`) -/

namespace Sokoban

/-- Read cell `(x, y)` of a character grid (space out of range; the claims
always supply rectangular grids, matching Python indexing). -/
def gridAt (g : List (List Char)) (x y : Nat) : Char := (g.getD x []).getD y ' '

/-- The mutable state of `_parse_grid` (`q2.py` lines 47-59). -/
structure ParseRes where
  player : Option (Nat × Nat)
  boxes : List (Nat × Nat)
  goals : List (Nat × Nat)
  walls : List (Nat × Nat)
deriving DecidableEq, Repr

/-- One iteration of the `_parse_grid` scan at cell `(x, y)`: the
`if/elif` chain on the cell marker. -/
def parseCell (g : List (List Char)) (res : ParseRes) (x y : Nat) : ParseRes :=
  if gridAt g x y = 'P' then { res with player := some (x, y) }
  else if gridAt g x y = 'B' then { res with boxes := res.boxes ++ [(x, y)] }
  else if gridAt g x y = 'G' then { res with goals := res.goals ++ [(x, y)] }
  else if gridAt g x y = '#' then { res with walls := res.walls ++ [(x, y)] }
  else res

/-- `_parse_grid` (`q2.py` lines 47-59): scan all cells in row-major order
starting from empty lists and no player.  Note that a grid without a `'P'`
leaves `player = none` and the scan still succeeds. -/
def parseGrid (g : List (List Char)) (N M : Nat) : ParseRes :=
  (List.range N).foldl
    (fun res x => (List.range M).foldl (fun res y => parseCell g res x y) res)
    ⟨none, [], [], []⟩

/-- The fields set by `SokobanEncoder.__init__` (`q2.py` lines 23-44);
the field `T` stores `self.T = T + 1`. -/
structure SokobanEncoder where
  grid : List (List Char)
  T : Nat
  N : Nat
  M : Nat
  goals : List (Nat × Nat)
  boxes : List (Nat × Nat)
  walls : List (Nat × Nat)
  player_start : Option (Nat × Nat)
  num_boxes : Nat
deriving Repr

/-- `SokobanEncoder.__init__` (`q2.py` lines 23-44): `N = len(grid)`,
`M = len(grid[0])`, `self.T = T + 1`, then `_parse_grid`.  Construction
always succeeds; in particular no check that a player was found. -/
def mkEncoder (grid : List (List Char)) (T : Nat) : SokobanEncoder :=
  let N := grid.length
  let M := (grid.getD 0 []).length
  let pr := parseGrid grid N M
  { grid := grid, T := T + 1, N := N, M := M, goals := pr.goals,
    boxes := pr.boxes, walls := pr.walls, player_start := pr.player,
    num_boxes := pr.boxes.length }

/-- `q2.py` lines 62-65: goal-cell variable. -/
def var_goal (M x y : Nat) : Nat := x * M + y + 1

/-- `q2.py` lines 67-76: player-position variable (`L` denotes `self.T`). -/
def var_player (N M x y t : Nat) : Nat := (t + 1) * M * N + x * M + y + 1

/-- `q2.py` lines 78-81: action variable, `num` in `1..9`
(move URDL = 1-4, push URDL = 5-8, stay = 9). -/
def var_move (N M L num t : Nat) : Nat := (L + 1) * M * N + 9 * t + num

/-- `q2.py` lines 83-92: box-position variable for box `b` in `1..B`. -/
def var_box (N M L B b x y t : Nat) : Nat :=
  (1 + L) * N * M + 9 * L + B * t * N * M + (b - 1) * N * M + x * M + y + 1

/-- Total variable count of the layout, per the closing comment of `q2.py`:
goal block, `L` player blocks, `9 L` action variables, `B L` box blocks. -/
def totalVars (N M L B : Nat) : Nat := ((B + 1) * L + 1) * N * M + 9 * L

/-- The result of calling `var_goal`: the `assert` in `q2.py` line 63-64
raises (`none`) on out-of-bounds coordinates (the `>= 0` half of the assert
is vacuous for `Nat` arguments). -/
def var_goal_call (N M x y : Nat) : Option Nat :=
  if x < N ∧ y < M then some (var_goal M x y) else none

/-- The result of calling `var_player` with its asserts (`q2.py` 72-75). -/
def var_player_call (N M L x y t : Nat) : Option Nat :=
  if x < N ∧ y < M ∧ t < L then some (var_player N M x y t) else none

/-- The result of calling `var_move` with its asserts (`q2.py` 79-80). -/
def var_move_call (N M L num t : Nat) : Option Nat :=
  if 1 ≤ num ∧ num ≤ 9 ∧ t < L then some (var_move N M L num t) else none

/-- The result of calling `var_box` with its asserts (`q2.py` 88-91). -/
def var_box_call (N M L B b x y t : Nat) : Option Nat :=
  if 1 ≤ b ∧ b ≤ B ∧ x < N ∧ y < M ∧ t < L then some (var_box N M L B b x y t)
  else none

/-- The `if move == 0 / elif / elif / else` chain computing the destination
cell of a direction code in `0..3` (U, R, D, L), on `Int` coordinates since
the destination may be off-grid. -/
def newPos (move : Nat) (p : Int × Int) : Int × Int :=
  if move = 0 then (p.1 - 1, p.2)
  else if move = 1 then (p.1, p.2 + 1)
  else if move = 2 then (p.1 + 1, p.2)
  else (p.1, p.2 - 1)

/-- The off-grid test `new_x < 0 or new_y < 0 or new_x >= N or new_y >= M`. -/
def oob (N M : Nat) (p : Int × Int) : Bool :=
  p.1 < 0 || p.2 < 0 || (N : Int) ≤ p.1 || (M : Int) ≤ p.2

/-- `q2.py` encode part 1 (lines 107-126): initial player and box unit
clauses, goal-cell unit clauses, wall exclusion clauses, forced stay at
`t = 0`. -/
def initClauses (N M L B : Nat) (player : Nat × Nat)
    (boxes walls goals : List (Nat × Nat)) : List (List Int) :=
  [[(var_player N M player.1 player.2 0 : Int)]] ++
  ((List.range B).map fun b =>
    [(var_box N M L B (b + 1) (boxes.getD b (0, 0)).1 (boxes.getD b (0, 0)).2 0 : Int)]) ++
  ((List.range N).flatMap fun x => (List.range M).flatMap fun y =>
    if (x, y) ∈ goals then [[(var_goal M x y : Int)]]
    else [[-(var_goal M x y : Int)]]) ++
  (walls.flatMap fun w => (List.range L).flatMap fun t =>
    [-(var_player N M w.1 w.2 t : Int)] ::
      ((List.range B).map fun b => [-(var_box N M L B (b + 1) w.1 w.2 t : Int)])) ++
  [[(var_move N M L 9 0 : Int)]]

/-- `q2.py` encode part 2 (lines 129-147): per plain move direction, box
frame clauses and the player transition (or prohibition when off-grid). -/
def moveClauses (N M L B : Nat) : List (List Int) :=
  (List.range N).flatMap fun x => (List.range M).flatMap fun y =>
    (List.range 4).flatMap fun move => (List.range' 1 (L - 1)).flatMap fun t =>
      ((List.range B).map fun b =>
        [-(var_move N M L (move + 1) t : Int),
         -(var_box N M L B (b + 1) x y (t - 1) : Int),
         (var_box N M L B (b + 1) x y t : Int)]) ++
      (let np := newPos move ((x : Int), (y : Int))
       if oob N M np then
         [[-(var_move N M L (move + 1) t : Int), -(var_player N M x y (t - 1) : Int)]]
       else
         [[-(var_move N M L (move + 1) t : Int), -(var_player N M x y (t - 1) : Int),
           (var_player N M np.1.toNat np.2.toNat t : Int)]])

/-- The "pushed box moved" clause of `q2.py` line 172: pushing from `(x, y)`
in direction `move` with box `b` ahead at `(nx, ny)` forces the box to
`(dx, dy)` at time `t`. -/
def pushMovedBox (N M L B move t b x y nx ny dx dy : Nat) : List Int :=
  [-(var_move N M L (move + 5) t : Int), -(var_player N M x y (t - 1) : Int),
   -(var_box N M L B b nx ny (t - 1) : Int), (var_box N M L B b dx dy t : Int)]

/-- The per-cell frame clause of `q2.py` lines 173-176: under the same push,
box `b` seen at a cell `(px, py)` other than `(nx, ny)` at `t - 1` keeps its
position at `t`. -/
def pushFrame (N M L B move t b x y px py : Nat) : List Int :=
  [-(var_move N M L (move + 5) t : Int), -(var_player N M x y (t - 1) : Int),
   -(var_box N M L B b px py (t - 1) : Int), (var_box N M L B b px py t : Int)]

/-- `q2.py` encode part 3 (lines 149-178): push transitions. -/
def pushClauses (N M L B : Nat) : List (List Int) :=
  (List.range N).flatMap fun x => (List.range M).flatMap fun y =>
    (List.range' 1 (L - 1)).flatMap fun t => (List.range 4).flatMap fun move =>
      let np := newPos move ((x : Int), (y : Int))
      let dp := newPos move np
      if oob N M np || oob N M dp then
        [[-(var_move N M L (move + 5) t : Int), -(var_player N M x y (t - 1) : Int)]]
      else
        ((List.range B).flatMap fun b =>
          [[-(var_move N M L (move + 5) t : Int), -(var_player N M x y (t - 1) : Int),
            -(var_box N M L B (b + 1) np.1.toNat np.2.toNat (t - 1) : Int),
            (var_player N M np.1.toNat np.2.toNat t : Int)],
           pushMovedBox N M L B move t (b + 1) x y np.1.toNat np.2.toNat dp.1.toNat dp.2.toNat] ++
          ((List.range N).flatMap fun px => (List.range M).flatMap fun py =>
            if (px, py) = (np.1.toNat, np.2.toNat) then []
            else [pushFrame N M L B move t (b + 1) x y px py])) ++
        [[-(var_move N M L (move + 5) t : Int), -(var_player N M x y (t - 1) : Int)] ++
          ((List.range B).map fun b =>
            (var_box N M L B (b + 1) np.1.toNat np.2.toNat (t - 1) : Int))]

/-- `q2.py` encode part 4 (lines 180-187): player/box and box/box
non-overlap. -/
def overlapClauses (N M L B : Nat) : List (List Int) :=
  (List.range N).flatMap fun x => (List.range M).flatMap fun y =>
    (List.range B).flatMap fun b => (List.range L).flatMap fun t =>
      [-(var_player N M x y t : Int), -(var_box N M L B (b + 1) x y t : Int)] ::
        ((List.range' (b + 1) (B - (b + 1))).map fun bd =>
          [-(var_box N M L B (b + 1) x y t : Int), -(var_box N M L B (bd + 1) x y t : Int)])

/-- `q2.py` encode part 5 (lines 189-193): every final box position is a
goal cell. -/
def goalClauses (N M L B : Nat) : List (List Int) :=
  (List.range N).flatMap fun x => (List.range M).flatMap fun y =>
    (List.range B).map fun b =>
      [-(var_box N M L B (b + 1) x y (L - 1) : Int), (var_goal M x y : Int)]

/-- `q2.py` encode part 6 (lines 196-204): exactly one action per time step
(pairwise exclusions, then the totality clause). -/
def actionClauses (N M L : Nat) : List (List Int) :=
  (List.range L).flatMap fun t =>
    ((List.range' 1 9).flatMap fun i =>
      (List.range' (i + 1) (9 - i)).map fun j =>
        [-(var_move N M L i t : Int), -(var_move N M L j t : Int)]) ++
    [(List.range' 1 9).map fun i => (var_move N M L i t : Int)]

/-- The flattened list of player-position literals at time `t`
(`q2.py` line 208). -/
def playerCells (N M t : Nat) : List Int :=
  (List.range N).flatMap fun x =>
    (List.range M).map fun y => (var_player N M x y t : Int)

/-- The flattened list of box-`b`-position literals at time `t`
(`q2.py` line 216). -/
def boxCells (N M L B b t : Nat) : List Int :=
  (List.range N).flatMap fun x =>
    (List.range M).map fun y => (var_box N M L B b x y t : Int)

/-- `q2.py` encode part 7 (lines 206-221): the player and each box occupy
exactly one cell at each time step. -/
def uniqueClauses (N M L B : Nat) : List (List Int) :=
  (List.range L).flatMap fun t =>
    (playerCells N M t :: pairwise_neg (playerCells N M t)) ++
    ((List.range B).flatMap fun b =>
      boxCells N M L B (b + 1) t :: pairwise_neg (boxCells N M L B (b + 1) t))

/-- `q2.py` encode part 8 (lines 222-228): the stay action freezes every box
and the player. -/
def stayClauses (N M L B : Nat) : List (List Int) :=
  (List.range' 1 (L - 1)).flatMap fun t =>
    (List.range N).flatMap fun x => (List.range M).flatMap fun y =>
      ((List.range B).map fun b =>
        [-(var_move N M L 9 t : Int), -(var_box N M L B (b + 1) x y (t - 1) : Int),
         (var_box N M L B (b + 1) x y t : Int)]) ++
      [[-(var_move N M L 9 t : Int), -(var_player N M x y (t - 1) : Int),
        (var_player N M x y t : Int)]]

/-- The clause list returned by `SokobanEncoder.encode` for a player start
`player`, in the emission order of `q2.py` lines 95-230. -/
def encodeClauses (N M L B : Nat) (player : Nat × Nat)
    (boxes walls goals : List (Nat × Nat)) : List (List Int) :=
  initClauses N M L B player boxes walls goals ++ moveClauses N M L B ++
    pushClauses N M L B ++ overlapClauses N M L B ++ goalClauses N M L B ++
    actionClauses N M L ++ uniqueClauses N M L B ++ stayClauses N M L B

/-- `SokobanEncoder.encode`: subscripting `self.player_start` on line 107
raises a `TypeError` when no player was parsed (`player_start` is `None`),
modelled by `none`; otherwise the clause list is built. -/
def SokobanEncoder.encode (e : SokobanEncoder) : Option (List (List Int)) :=
  match e.player_start with
  | none => none
  | some p => some (encodeClauses e.N e.M e.T e.num_boxes p e.boxes e.walls e.goals)

/-- `decode` (`q2.py` lines 234-262): scan the model positions of the action
variable range in order and append a direction symbol for each positive
directional literal (cases 0-7 of the `match`); the stay case 8 appends
nothing. -/
def decode (model : List Int) (e : SokobanEncoder) : List Char :=
  (List.range' ((e.T + 1) * e.N * e.M) (9 * e.T)).filterMap fun index =>
    if 0 < model.getD index 0 then
      match (index - (e.T + 1) * e.N * e.M) % 9 with
      | 0 => some 'U'
      | 1 => some 'R'
      | 2 => some 'D'
      | 3 => some 'L'
      | 4 => some 'U'
      | 5 => some 'R'
      | 6 => some 'D'
      | 7 => some 'L'
      | _ => none
    else none

/-- The direction symbol of an action code, as the specification describes
the decoder: move codes 1-4 and push codes 5-8 map to U, R, D, L; the stay
code 9 contributes no symbol. -/
def dirOfAction (num : Nat) : Option Char :=
  if num = 1 ∨ num = 5 then some 'U'
  else if num = 2 ∨ num = 6 then some 'R'
  else if num = 3 ∨ num = 7 then some 'D'
  else if num = 4 ∨ num = 8 then some 'L'
  else none

/-- The move sequence the specification ascribes to the decoder: in time
order over steps `1..L-1`, the direction symbol of the step's true action
variable (none for the stay action; step `0` contributes nothing). -/
def specMoves (N M L : Nat) (a : Nat → Bool) : List Char :=
  (List.range' 1 (L - 1)).filterMap fun t =>
    ((List.range' 1 9).find? fun num => a (var_move N M L num t)).bind dirOfAction

/-- Padding an assignment of the horizon-`S` encoding to horizon `L ≥ S`:
goal variables are kept, player and box positions at times `t ≥ S` are
frozen at their time-`S-1` value, and actions at times `t ≥ S` become the
stay action 9.  The id `v` is decomposed according to the variable layout of
the horizon-`L` encoding and looked up in `a` at the horizon-`S` id. -/
def padAssign (N M S L B : Nat) (a : Nat → Bool) (v : Nat) : Bool :=
  if v ≤ N * M then a v
  else if v ≤ (L + 1) * (N * M) then
    a (var_player N M (((v - N * M - 1) % (N * M)) / M)
        (((v - N * M - 1) % (N * M)) % M)
        (min ((v - N * M - 1) / (N * M)) (S - 1)))
  else if v ≤ (L + 1) * (N * M) + 9 * L then
    if (v - (L + 1) * (N * M) - 1) / 9 < S then
      a (var_move N M S ((v - (L + 1) * (N * M) - 1) % 9 + 1)
          ((v - (L + 1) * (N * M) - 1) / 9))
    else decide ((v - (L + 1) * (N * M) - 1) % 9 + 1 = 9)
  else if v ≤ (L + 1) * (N * M) + 9 * L + L * (B * (N * M)) then
    a ((S + 1) * (N * M) + 9 * S +
        (min ((v - ((L + 1) * (N * M) + 9 * L) - 1) / (B * (N * M))) (S - 1)) *
          (B * (N * M)) +
        (v - ((L + 1) * (N * M) + 9 * L) - 1) % (B * (N * M)) + 1)
  else false

end Sokoban

/-! ## Generic satisfaction lemmas -/

theorem satCNF_iff (a : Nat → Bool) (f : List (List Int)) :
    satCNF a f = true ↔ ∀ c ∈ f, satClause a c = true := by
  simp [satCNF, List.all_eq_true]

theorem satCNF_append_iff (a : Nat → Bool) (f g : List (List Int)) :
    satCNF a (f ++ g) = true ↔ satCNF a f = true ∧ satCNF a g = true := by
  simp only [satCNF_iff]
  exact List.forall_mem_append

theorem satCNF_cons_iff (a : Nat → Bool) (c : List Int) (f : List (List Int)) :
    satCNF a (c :: f) = true ↔ satClause a c = true ∧ satCNF a f = true := by
  simp [satCNF_iff]

theorem satCNF_flatMap_iff {α : Type} (a : Nat → Bool) (xs : List α)
    (g : α → List (List Int)) :
    satCNF a (xs.flatMap g) = true ↔ ∀ x ∈ xs, satCNF a (g x) = true := by
  simp only [satCNF_iff, List.mem_flatMap]
  constructor
  · intro h x hx c hc
    exact h c ⟨x, hx, hc⟩
  · rintro h c ⟨x, hx, hc⟩
    exact h x hx c hc

theorem satCNF_map_iff {α : Type} (a : Nat → Bool) (xs : List α)
    (g : α → List Int) :
    satCNF a (xs.map g) = true ↔ ∀ x ∈ xs, satClause a (g x) = true := by
  simp [satCNF_iff]

theorem satCNF_singleton_iff (a : Nat → Bool) (c : List Int) :
    satCNF a [c] = true ↔ satClause a c = true := by
  simp [satCNF_iff]

theorem satClause_iff (a : Nat → Bool) (c : List Int) :
    satClause a c = true ↔ ∃ l ∈ c, satLit a l = true := by
  simp [satClause, List.any_eq_true]

theorem satLit_pos (a : Nat → Bool) (v : Nat) (h : 0 < v) :
    satLit a ((v : Nat) : Int) = a v := by
  simp [satLit, h]

theorem satLit_neg (a : Nat → Bool) (v : Nat) (h : 0 < v) :
    satLit a (-((v : Nat) : Int)) = !a v := by
  have h1 : ¬(0 < -((v : Nat) : Int)) := by omega
  simp [satLit, h1]

theorem getD_map_range' (f : Nat → Int) (s n i : Nat) (h : i < n) :
    ((List.range' s n).map f).getD i 0 = f (s + i) := by
  rw [List.getD_eq_getElem?_getD]
  simp [h]

theorem getD_mapIdx {α β : Type} (l : List α) (f : Nat → α → β) (i : Nat)
    (d : α) (e : β) (h : i < l.length) :
    (l.mapIdx f).getD i e = f i (l.getD i d) := by
  rw [List.getD_eq_getElem?_getD, List.getD_eq_getElem?_getD]
  have hl : i < (l.mapIdx f).length := by simpa using h
  rw [List.getElem?_eq_getElem hl, List.getElem?_eq_getElem h]
  simp [List.get_mapIdx]

theorem pairwise_neg_sat_iff (a : Nat → Bool) (lits : List Int) :
    satCNF a (pairwise_neg lits) = true ↔
      ∀ i j, i < j → j < lits.length →
        (satLit a (-(lits.getD i 0)) || satLit a (-(lits.getD j 0))) = true := by
  unfold pairwise_neg
  rw [satCNF_flatMap_iff]
  constructor
  · intro h i j hij hj
    have hi : i < lits.length := lt_trans hij hj
    have hmap := h i (List.mem_range.mpr hi)
    rw [satCNF_map_iff] at hmap
    have hjmem : j ∈ List.range' (i + 1) (lits.length - (i + 1)) := by
      rw [List.mem_range'_1]; omega
    have := hmap j hjmem
    simpa [satClause] using this
  · intro h i hi
    rw [satCNF_map_iff]
    intro j hj
    rw [List.mem_range'_1] at hj
    rw [List.mem_range] at hi
    have := h i j (by omega) (by omega)
    simpa [satClause] using this

namespace Sudoku

theorem prop_pos (n r c num : Nat) (h : 1 ≤ num) : 0 < prop n r c num := by
  unfold prop
  exact lt_of_lt_of_le h (Nat.le_add_left num _)

/-- From the cell clauses: every cell has at least one value and at most one
value in `1..n` whose variable is true. -/
theorem cellFacts (a : Nat → Bool) (n : Nat)
    (h : satCNF a (cellClauses n) = true) (r c : Nat) (hr : r < n) (hc : c < n) :
    (∃ v, 1 ≤ v ∧ v ≤ n ∧ a (prop n r c v) = true) ∧
      ∀ v w, 1 ≤ v → v ≤ n → 1 ≤ w → w ≤ n →
        a (prop n r c v) = true → a (prop n r c w) = true → v = w := by
  unfold cellClauses at h
  rw [satCNF_flatMap_iff] at h
  have h2 := h r (List.mem_range.mpr hr)
  rw [satCNF_flatMap_iff] at h2
  have h3 := h2 c (List.mem_range.mpr hc)
  rw [satCNF_cons_iff] at h3
  obtain ⟨htot, hpair⟩ := h3
  constructor
  · rw [satClause_iff] at htot
    obtain ⟨l, hl, hsat⟩ := htot
    rw [List.mem_map] at hl
    obtain ⟨num, hnum, rfl⟩ := hl
    rw [List.mem_range'_1] at hnum
    refine ⟨num, hnum.1, by omega, ?_⟩
    rwa [satLit_pos a _ (prop_pos n r c num hnum.1)] at hsat
  · rw [pairwise_neg_sat_iff] at hpair
    have key : ∀ v w, 1 ≤ v → w ≤ n → v < w →
        a (prop n r c v) = true → a (prop n r c w) = true → False := by
      intro v w hv hwn hlt hav haw
      have hlen : ((List.range' 1 n).map fun num => (prop n r c num : Int)).length = n := by
        simp
      have hp := hpair (v - 1) (w - 1) (by omega) (by rw [hlen]; omega)
      rw [getD_map_range' _ _ _ _ (by omega), getD_map_range' _ _ _ _ (by omega)] at hp
      have hv1 : 1 + (v - 1) = v := by omega
      have hw1 : 1 + (w - 1) = w := by omega
      rw [hv1, hw1] at hp
      rw [satLit_neg a _ (prop_pos n r c v (by omega)),
        satLit_neg a _ (prop_pos n r c w (by omega)), hav, haw] at hp
      simp at hp
    intro v w hv hvn hw hwn hav haw
    rcases lt_trichotomy v w with hlt | heq | hgt
    · exact absurd (key v w hv hwn hlt hav haw) (by simp)
    · exact heq
    · exact absurd (key w v hw hvn hgt haw hav) (by simp)

/-- Under cell totality, the decoding loop writes the cell with a value in
`1..n` whose variable is true. -/
theorem decodeCell_eq (a : Nat → Bool) (n r c orig : Nat)
    (hex : ∃ v, 1 ≤ v ∧ v ≤ n ∧ a (prop n r c v) = true) :
    ∃ v, decodeCell n a r c orig = v ∧ 1 ≤ v ∧ v ≤ n ∧ a (prop n r c v) = true := by
  obtain ⟨v0, hv0, hv0n, hav0⟩ := hex
  have hsome : ((List.range' 1 n).find? fun num => a (prop n r c num)).isSome := by
    rw [List.find?_isSome]
    exact ⟨v0, by rw [List.mem_range'_1]; omega, hav0⟩
  obtain ⟨v, hfind⟩ := Option.isSome_iff_exists.mp hsome
  have hmem := List.mem_of_find?_eq_some hfind
  rw [List.mem_range'_1] at hmem
  have hpred := List.find?_some hfind
  exact ⟨v, by unfold decodeCell; rw [hfind], hmem.1, by omega, hpred⟩

/-- Reading a decoded cell: for in-range coordinates of a rectangular grid
the decoding loop has overwritten the cell. -/
theorem decodeGrid_cellAt (g : List (List Nat)) (a : Nat → Bool) (r c : Nat)
    (hr : r < g.length) (hrow : (g.getD r []).length = g.length)
    (hc : c < g.length) :
    cellAt (decodeGrid g a) r c = decodeCell g.length a r c (cellAt g r c) := by
  unfold cellAt decodeGrid
  rw [getD_mapIdx _ _ _ [] _ hr]
  rw [getD_mapIdx _ _ _ 0 _ (by rw [hrow]; exact hc)]
  simp [hc]

end Sudoku

theorem mixedRadix_div_mod (q r B : Nat) (hr : r < B) :
    (q * B + r) / B = q ∧ (q * B + r) % B = r := by
  have hB : 0 < B := lt_of_le_of_lt (Nat.zero_le r) hr
  constructor
  · rw [Nat.mul_comm q B, Nat.mul_add_div hB, Nat.div_eq_of_lt hr]
    omega
  · rw [Nat.mul_comm q B, Nat.mul_add_mod]
    exact Nat.mod_eq_of_lt hr

theorem mixedRadix_inj (q r q2 r2 B : Nat) (hr : r < B) (hr2 : r2 < B)
    (h : q * B + r = q2 * B + r2) : q = q2 ∧ r = r2 := by
  have h1 := mixedRadix_div_mod q r B hr
  have h2 := mixedRadix_div_mod q2 r2 B hr2
  constructor
  · rw [← h1.1, ← h2.1, h]
  · rw [← h1.2, ← h2.2, h]

namespace Sudoku

/-- From the row clauses: every value appears (as a true variable) somewhere
in every row. -/
theorem rowFacts (a : Nat → Bool) (n : Nat)
    (h : satCNF a (rowClauses n) = true) (r v : Nat) (hr : r < n)
    (hv : 1 ≤ v) (hvn : v ≤ n) : ∃ c, c < n ∧ a (prop n r c v) = true := by
  unfold rowClauses at h
  rw [satCNF_flatMap_iff] at h
  have h2 := h r (List.mem_range.mpr hr)
  rw [satCNF_map_iff] at h2
  have h3 := h2 v (by rw [List.mem_range'_1]; omega)
  rw [satClause_iff] at h3
  obtain ⟨l, hl, hsat⟩ := h3
  rw [List.mem_map] at hl
  obtain ⟨c, hc, rfl⟩ := hl
  rw [List.mem_range] at hc
  exact ⟨c, hc, by rwa [satLit_pos a _ (prop_pos n r c v hv)] at hsat⟩

/-- From the column clauses: every value appears somewhere in every column. -/
theorem colFacts (a : Nat → Bool) (n : Nat)
    (h : satCNF a (colClauses n) = true) (c v : Nat) (hc : c < n)
    (hv : 1 ≤ v) (hvn : v ≤ n) : ∃ r, r < n ∧ a (prop n r c v) = true := by
  unfold colClauses at h
  rw [satCNF_flatMap_iff] at h
  have h2 := h c (List.mem_range.mpr hc)
  rw [satCNF_map_iff] at h2
  have h3 := h2 v (by rw [List.mem_range'_1]; omega)
  rw [satClause_iff] at h3
  obtain ⟨l, hl, hsat⟩ := h3
  rw [List.mem_map] at hl
  obtain ⟨r, hrm, rfl⟩ := hl
  rw [List.mem_range] at hrm
  exact ⟨r, hrm, by rwa [satLit_pos a _ (prop_pos n r c v hv)] at hsat⟩

/-- For a perfect square `n = s * s` with `1 ≤ s`, the Python block starts
`range(0, n, s)` are `0, s, ..., (s-1)*s`. -/
theorem blockStarts_eq (n s : Nat) (hs : 1 ≤ s) (hsq : s * s = n) :
    blockStarts n s = (List.range s).map (· * s) := by
  unfold blockStarts
  have : (n + s - 1) / s = s := by
    have h1 : n + s - 1 = s * s + (s - 1) := by omega
    rw [h1, Nat.mul_add_div (by omega), Nat.div_eq_of_lt (by omega)]
    omega
  rw [this]

/-- From the subgrid clauses: every value appears somewhere in every
subgrid. -/
theorem subgridFacts (a : Nat → Bool) (n s : Nat) (hs : 1 ≤ s)
    (hsq : s * s = n) (h : satCNF a (subgridClauses n s) = true)
    (bi bj v : Nat) (hbi : bi < s) (hbj : bj < s) (hv : 1 ≤ v) (hvn : v ≤ n) :
    ∃ i j, i < s ∧ j < s ∧ a (prop n (bi * s + i) (bj * s + j) v) = true := by
  unfold subgridClauses at h
  rw [blockStarts_eq n s hs hsq] at h
  rw [satCNF_flatMap_iff] at h
  have h2 := h (bi * s) (List.mem_map.mpr ⟨bi, List.mem_range.mpr hbi, rfl⟩)
  rw [satCNF_flatMap_iff] at h2
  have h3 := h2 (bj * s) (List.mem_map.mpr ⟨bj, List.mem_range.mpr hbj, rfl⟩)
  rw [satCNF_map_iff] at h3
  have h4 := h3 v (by rw [List.mem_range'_1]; omega)
  rw [satClause_iff] at h4
  obtain ⟨l, hl, hsat⟩ := h4
  rw [List.mem_flatMap] at hl
  obtain ⟨r, hrm, hl⟩ := hl
  rw [List.mem_map] at hl
  obtain ⟨c, hcm, rfl⟩ := hl
  rw [List.mem_range'_1] at hrm hcm
  refine ⟨r - bi * s, c - bj * s, by omega, by omega, ?_⟩
  have hr2 : bi * s + (r - bi * s) = r := by omega
  have hc2 : bj * s + (c - bj * s) = c := by omega
  rw [hr2, hc2]
  rwa [satLit_pos a _ (prop_pos n r c v hv)] at hsat

/-- Pigeonhole core: a cell enumeration of size `n` that covers every value
at least once (with per-cell uniqueness from the cell clauses) holds every
value exactly once after decoding. -/
theorem exactlyOnce_of_cover (a : Nat → Bool) (g : List (List Nat))
    (hrect : ∀ row ∈ g, row.length = g.length)
    (hsat : satCNF a (cellClauses g.length) = true)
    (e : Fin g.length → Nat × Nat)
    (hbound : ∀ k, (e k).1 < g.length ∧ (e k).2 < g.length)
    (hcover : ∀ v, 1 ≤ v → v ≤ g.length →
      ∃ k, a (prop g.length (e k).1 (e k).2 v) = true)
    (v : Nat) (hv : 1 ≤ v) (hvn : v ≤ g.length) :
    ∃! k : Fin g.length, cellAt (decodeGrid g a) (e k).1 (e k).2 = v := by
  classical
  have hcell : ∀ k : Fin g.length, ∃ w,
      cellAt (decodeGrid g a) (e k).1 (e k).2 = w ∧ 1 ≤ w ∧ w ≤ g.length ∧
      a (prop g.length (e k).1 (e k).2 w) = true ∧
      ∀ u, 1 ≤ u → u ≤ g.length →
        a (prop g.length (e k).1 (e k).2 u) = true → u = w := by
    intro k
    obtain ⟨hb1, hb2⟩ := hbound k
    obtain ⟨hex, huniq⟩ := cellFacts a g.length hsat (e k).1 (e k).2 hb1 hb2
    obtain ⟨w, hwdec, hw1, hwn, haw⟩ :=
      decodeCell_eq a g.length (e k).1 (e k).2 (cellAt g (e k).1 (e k).2) hex
    have hrowget : g.getD (e k).1 [] = g[(e k).1] := by
      rw [List.getD_eq_getElem?_getD, List.getElem?_eq_getElem hb1]
      rfl
    have hrowlen : (g.getD (e k).1 []).length = g.length := by
      rw [hrowget]
      exact hrect _ (List.getElem_mem hb1)
    refine ⟨w, ?_, hw1, hwn, haw,
      fun u hu hun hau => huniq u w hu hun hw1 hwn hau haw⟩
    rw [decodeGrid_cellAt g a _ _ hb1 hrowlen hb2]
    exact hwdec
  choose val hvaldec hval1 hvaln hvala hvaluniq using hcell
  have hfb : ∀ k : Fin g.length, val k - 1 < g.length := by
    intro k
    have := hval1 k
    have := hvaln k
    omega
  have hsurj : Function.Surjective fun k : Fin g.length =>
      (⟨val k - 1, hfb k⟩ : Fin g.length) := by
    intro w
    obtain ⟨k, hk⟩ := hcover (w.val + 1) (by omega) (by omega)
    refine ⟨k, ?_⟩
    have hvk := hvaluniq k (w.val + 1) (by omega) (by omega) hk
    apply Fin.ext
    show val k - 1 = w.val
    omega
  have hinj : Function.Injective fun k : Fin g.length =>
      (⟨val k - 1, hfb k⟩ : Fin g.length) :=
    ((Fintype.bijective_iff_surjective_and_card _).mpr ⟨hsurj, by simp⟩).1
  obtain ⟨k0, hk0⟩ := hsurj ⟨v - 1, by omega⟩
  have hvalk0 : val k0 = v := by
    have h2 : val k0 - 1 = v - 1 := congrArg Fin.val hk0
    have := hval1 k0
    omega
  refine ⟨k0, ?_, ?_⟩
  · show cellAt (decodeGrid g a) (e k0).1 (e k0).2 = v
    rw [hvaldec k0, hvalk0]
  · intro k hk
    apply hinj
    rw [hk0]
    apply Fin.ext
    show val k - 1 = v - 1
    have hvk : val k = v := by rw [← hvaldec k]; exact hk
    have := hval1 k
    omega

end Sudoku

namespace Sudoku

/-- C1: for every square grid whose side is a perfect square and every model
of the CNF built by `solve_sudoku`, the decoded grid contains each value in
`1..n` exactly once in every row, every column and every
`sub_n`-by-`sub_n` subgrid, although the row/column/subgrid clauses are only
at-least-one clauses. -/
theorem decoded_rows_cols_subgrids_exactly_once
    (g : List (List Nat)) (a : Nat → Bool)
    (hrect : ∀ row ∈ g, row.length = g.length)
    (hsq : Nat.sqrt g.length * Nat.sqrt g.length = g.length)
    (hsat : satCNF a (sudoku_cnf g) = true) :
    (∀ r, r < g.length → ∀ v, 1 ≤ v → v ≤ g.length →
      ∃! c, c < g.length ∧ cellAt (decodeGrid g a) r c = v) ∧
    (∀ c, c < g.length → ∀ v, 1 ≤ v → v ≤ g.length →
      ∃! r, r < g.length ∧ cellAt (decodeGrid g a) r c = v) ∧
    (∀ bi bj, bi < Nat.sqrt g.length → bj < Nat.sqrt g.length →
      ∀ v, 1 ≤ v → v ≤ g.length →
      ∃! p : Nat × Nat, p.1 < Nat.sqrt g.length ∧ p.2 < Nat.sqrt g.length ∧
        cellAt (decodeGrid g a) (bi * Nat.sqrt g.length + p.1)
          (bj * Nat.sqrt g.length + p.2) = v) := by
  rw [sudoku_cnf, satCNF_append_iff, satCNF_append_iff, satCNF_append_iff,
    satCNF_append_iff] at hsat
  obtain ⟨⟨⟨⟨hcellS, hrowS⟩, hcolS⟩, hsubS⟩, hgivS⟩ := hsat
  refine ⟨?_, ?_, ?_⟩
  · intro r hr v hv hvn
    have hcover : ∀ w, 1 ≤ w → w ≤ g.length →
        ∃ k : Fin g.length, a (prop g.length r k.val w) = true := by
      intro w hw hwn
      obtain ⟨c, hc, hac⟩ := rowFacts a g.length hrowS r w hr hw hwn
      exact ⟨⟨c, hc⟩, hac⟩
    obtain ⟨k0, hk0, huniq⟩ := exactlyOnce_of_cover a g hrect hcellS
      (fun k => (r, k.val)) (fun k => ⟨hr, k.isLt⟩) hcover v hv hvn
    refine ⟨k0.val, ⟨k0.isLt, hk0⟩, ?_⟩
    rintro c ⟨hc, hcv⟩
    exact congrArg Fin.val (huniq ⟨c, hc⟩ hcv)
  · intro c hc v hv hvn
    have hcover : ∀ w, 1 ≤ w → w ≤ g.length →
        ∃ k : Fin g.length, a (prop g.length k.val c w) = true := by
      intro w hw hwn
      obtain ⟨r, hr, har⟩ := colFacts a g.length hcolS c w hc hw hwn
      exact ⟨⟨r, hr⟩, har⟩
    obtain ⟨k0, hk0, huniq⟩ := exactlyOnce_of_cover a g hrect hcellS
      (fun k => (k.val, c)) (fun k => ⟨k.isLt, hc⟩) hcover v hv hvn
    refine ⟨k0.val, ⟨k0.isLt, hk0⟩, ?_⟩
    rintro r ⟨hr, hrv⟩
    exact congrArg Fin.val (huniq ⟨r, hr⟩ hrv)
  · intro bi bj hbi hbj v hv hvn
    have hs1 : 1 ≤ Nat.sqrt g.length := by omega
    have hbound : ∀ k : Fin g.length,
        bi * Nat.sqrt g.length + k.val / Nat.sqrt g.length < g.length ∧
        bj * Nat.sqrt g.length + k.val % Nat.sqrt g.length < g.length := by
      intro k
      have hd : k.val / Nat.sqrt g.length < Nat.sqrt g.length := by
        rw [Nat.div_lt_iff_lt_mul (by omega)]
        rw [hsq]
        exact k.isLt
      have hm : k.val % Nat.sqrt g.length < Nat.sqrt g.length :=
        Nat.mod_lt _ (by omega)
      constructor
      · refine lt_of_lt_of_le ?_ hsq.le
        calc bi * Nat.sqrt g.length + k.val / Nat.sqrt g.length
            < bi * Nat.sqrt g.length + Nat.sqrt g.length := by omega
          _ = (bi + 1) * Nat.sqrt g.length := by ring
          _ ≤ Nat.sqrt g.length * Nat.sqrt g.length :=
              Nat.mul_le_mul_right _ (by omega)
      · refine lt_of_lt_of_le ?_ hsq.le
        calc bj * Nat.sqrt g.length + k.val % Nat.sqrt g.length
            < bj * Nat.sqrt g.length + Nat.sqrt g.length := by omega
          _ = (bj + 1) * Nat.sqrt g.length := by ring
          _ ≤ Nat.sqrt g.length * Nat.sqrt g.length :=
              Nat.mul_le_mul_right _ (by omega)
    have hcover : ∀ w, 1 ≤ w → w ≤ g.length → ∃ k : Fin g.length,
        a (prop g.length (bi * Nat.sqrt g.length + k.val / Nat.sqrt g.length)
          (bj * Nat.sqrt g.length + k.val % Nat.sqrt g.length) w) = true := by
      intro w hw hwn
      obtain ⟨i, j, hi, hj, hac⟩ :=
        subgridFacts a g.length (Nat.sqrt g.length) hs1 hsq hsubS bi bj w hbi
          hbj hw hwn
      have hklt : i * Nat.sqrt g.length + j < g.length := by
        refine lt_of_lt_of_le ?_ hsq.le
        calc i * Nat.sqrt g.length + j
            < i * Nat.sqrt g.length + Nat.sqrt g.length := by omega
          _ = (i + 1) * Nat.sqrt g.length := by ring
          _ ≤ Nat.sqrt g.length * Nat.sqrt g.length :=
              Nat.mul_le_mul_right _ (by omega)
      obtain ⟨hd1, hd2⟩ := mixedRadix_div_mod i j (Nat.sqrt g.length) hj
      refine ⟨⟨i * Nat.sqrt g.length + j, hklt⟩, ?_⟩
      show a (prop g.length
        (bi * Nat.sqrt g.length +
          (i * Nat.sqrt g.length + j) / Nat.sqrt g.length)
        (bj * Nat.sqrt g.length +
          (i * Nat.sqrt g.length + j) % Nat.sqrt g.length) w) = true
      rw [hd1, hd2]
      exact hac
    obtain ⟨k0, hk0, huniq⟩ := exactlyOnce_of_cover a g hrect hcellS
      (fun k => (bi * Nat.sqrt g.length + k.val / Nat.sqrt g.length,
        bj * Nat.sqrt g.length + k.val % Nat.sqrt g.length))
      hbound hcover v hv hvn
    have hd0 : k0.val / Nat.sqrt g.length < Nat.sqrt g.length := by
      rw [Nat.div_lt_iff_lt_mul (by omega)]
      rw [hsq]
      exact k0.isLt
    have hm0 : k0.val % Nat.sqrt g.length < Nat.sqrt g.length :=
      Nat.mod_lt _ (by omega)
    refine ⟨(k0.val / Nat.sqrt g.length, k0.val % Nat.sqrt g.length),
      ⟨hd0, hm0, hk0⟩, ?_⟩
    rintro ⟨i, j⟩ ⟨hi, hj, hij⟩
    have hklt : i * Nat.sqrt g.length + j < g.length := by
      refine lt_of_lt_of_le ?_ hsq.le
      calc i * Nat.sqrt g.length + j
          < i * Nat.sqrt g.length + Nat.sqrt g.length := by omega
        _ = (i + 1) * Nat.sqrt g.length := by ring
        _ ≤ Nat.sqrt g.length * Nat.sqrt g.length :=
            Nat.mul_le_mul_right _ (by omega)
    obtain ⟨hd1, hd2⟩ := mixedRadix_div_mod i j (Nat.sqrt g.length) hj
    have hkey := huniq ⟨i * Nat.sqrt g.length + j, hklt⟩ (by
      show cellAt (decodeGrid g a)
        (bi * Nat.sqrt g.length +
          (i * Nat.sqrt g.length + j) / Nat.sqrt g.length)
        (bj * Nat.sqrt g.length +
          (i * Nat.sqrt g.length + j) % Nat.sqrt g.length) = v
      rw [hd1, hd2]
      exact hij)
    have hvaleq : i * Nat.sqrt g.length + j = k0.val := congrArg Fin.val hkey
    rw [Prod.mk.injEq]
    constructor
    · rw [← hvaleq, hd1]
    · rw [← hvaleq, hd2]

/-- Witness for C1 at the concrete grid `[[0]]` with the model making
variable 1 true. -/
theorem decoded_rows_cols_subgrids_exactly_once_witness :
    ((∀ row ∈ ([[0]] : List (List Nat)), row.length = 1) ∧
      Nat.sqrt 1 * Nat.sqrt 1 = 1 ∧
      satCNF (fun v => v == 1) (sudoku_cnf [[0]]) = true) ∧
    (∃! c, c < ([[0]] : List (List Nat)).length ∧
      cellAt (decodeGrid [[0]] (fun v => v == 1)) 0 c = 1) :=
  ⟨⟨by decide, by decide, by decide⟩,
    (decoded_rows_cols_subgrids_exactly_once [[0]] (fun v => v == 1)
      (by decide) (by decide) (by decide)).1 0 (by decide) 1 (by decide)
      (by decide)⟩

end Sudoku

namespace Sudoku

/-- From the given-value clauses: every pre-filled cell's variable is true in
any model. -/
theorem givenFacts (a : Nat → Bool) (g : List (List Nat))
    (h : satCNF a (givenClauses g g.length) = true) (r c : Nat)
    (hr : r < g.length) (hc : c < g.length) (hnz : cellAt g r c ≠ 0) :
    a (prop g.length r c (cellAt g r c)) = true := by
  unfold givenClauses at h
  rw [satCNF_flatMap_iff] at h
  have h2 := h r (List.mem_range.mpr hr)
  rw [satCNF_flatMap_iff] at h2
  have h3 := h2 c (List.mem_range.mpr hc)
  rw [if_pos hnz, satCNF_singleton_iff, satClause_iff] at h3
  obtain ⟨l, hl, hsat⟩ := h3
  rw [List.mem_singleton] at hl
  subst hl
  rwa [satLit_pos a _ (prop_pos _ _ _ _ (by omega))] at hsat

/-- C5: a grid with the same value pre-filled in two distinct cells of one
row yields an unsatisfiable CNF, although no pairwise same-value exclusion
within a row is emitted: unsatisfiability follows from the unit clauses,
per-cell exclusivity and row coverage. -/
theorem duplicate_given_in_row_unsat (g : List (List Nat)) (r c1 c2 v : Nat)
    (hr : r < g.length) (hc1 : c1 < g.length) (hc2 : c2 < g.length)
    (hne : c1 ≠ c2) (hv1 : 1 ≤ v) (hvn : v ≤ g.length)
    (hg1 : cellAt g r c1 = v) (hg2 : cellAt g r c2 = v) :
    ∀ a, satCNF a (sudoku_cnf g) = false := by
  intro a
  cases hbool : satCNF a (sudoku_cnf g) with
  | false => rfl
  | true =>
    exfalso
    rw [sudoku_cnf, satCNF_append_iff, satCNF_append_iff, satCNF_append_iff,
      satCNF_append_iff] at hbool
    obtain ⟨⟨⟨⟨hcellS, hrowS⟩, hcolS⟩, hsubS⟩, hgivS⟩ := hbool
    have hu1 : a (prop g.length r c1 v) = true := by
      rw [← hg1]
      exact givenFacts a g hgivS r c1 hr hc1 (by omega)
    have hu2 : a (prop g.length r c2 v) = true := by
      rw [← hg2]
      exact givenFacts a g hgivS r c2 hr hc2 (by omega)
    have hcellF : ∀ c : Fin g.length, ∃ w, 1 ≤ w ∧ w ≤ g.length ∧
        a (prop g.length r c.val w) = true ∧
        ∀ u, 1 ≤ u → u ≤ g.length → a (prop g.length r c.val u) = true →
          u = w := by
      intro c
      obtain ⟨hex, huniq⟩ := cellFacts a g.length hcellS r c.val hr c.isLt
      obtain ⟨w, hw1, hwn, haw⟩ := hex
      exact ⟨w, hw1, hwn, haw, fun u hu hun hau => huniq u w hu hun hw1 hwn hau haw⟩
    choose val hval1 hvaln hvala hvaluniq using hcellF
    have hfb : ∀ c : Fin g.length, val c - 1 < g.length := by
      intro c
      have := hval1 c
      have := hvaln c
      omega
    have hsurj : Function.Surjective fun c : Fin g.length =>
        (⟨val c - 1, hfb c⟩ : Fin g.length) := by
      intro w
      obtain ⟨c, hc, hac⟩ :=
        rowFacts a g.length hrowS r (w.val + 1) hr (by omega) (by omega)
      refine ⟨⟨c, hc⟩, ?_⟩
      have hvc := hvaluniq ⟨c, hc⟩ (w.val + 1) (by omega) (by omega) hac
      apply Fin.ext
      show val ⟨c, hc⟩ - 1 = w.val
      omega
    have hinj : Function.Injective fun c : Fin g.length =>
        (⟨val c - 1, hfb c⟩ : Fin g.length) :=
      ((Fintype.bijective_iff_surjective_and_card _).mpr ⟨hsurj, by simp⟩).1
    have hv1eq : val ⟨c1, hc1⟩ = v :=
      (hvaluniq ⟨c1, hc1⟩ v hv1 hvn hu1).symm
    have hv2eq : val ⟨c2, hc2⟩ = v :=
      (hvaluniq ⟨c2, hc2⟩ v hv1 hvn hu2).symm
    have heq : (⟨c1, hc1⟩ : Fin g.length) = ⟨c2, hc2⟩ := by
      apply hinj
      apply Fin.ext
      show val ⟨c1, hc1⟩ - 1 = val ⟨c2, hc2⟩ - 1
      rw [hv1eq, hv2eq]
    exact hne (congrArg Fin.val heq)

/-- Witness for C5 at the concrete grid `[[1, 1], [0, 0]]`. -/
theorem duplicate_given_in_row_unsat_witness :
    (cellAt [[1, 1], [0, 0]] 0 0 = 1 ∧ cellAt [[1, 1], [0, 0]] 0 1 = 1) ∧
    ∀ a, satCNF a (sudoku_cnf [[1, 1], [0, 0]]) = false :=
  ⟨⟨by decide, by decide⟩,
    duplicate_given_in_row_unsat [[1, 1], [0, 0]] 0 0 1 1 (by decide)
      (by decide) (by decide) (by decide) (by decide) (by decide) (by decide)
      (by decide)⟩

end Sudoku

/-- C7 counterexample: for the grid `[[0]]` and a genuine SAT outcome (the
model making variable 1 true satisfies the CNF), the caller's grid object
after the call is `[[1]]`, not the original `[[0]]`: the input grid is
mutated, refuting the claim that it is treated as read-only. -/
theorem solve_sudoku_mutates_input :
    satCNF (fun v => v == 1) (Sudoku.sudoku_cnf [[0]]) = true ∧
    (Sudoku.solve_sudoku [[0]] (some fun v => v == 1)).1 ≠ [[0]] := by
  constructor
  · decide
  · decide

/-- C7 amended: `solve_sudoku` returns the very grid object it was given
(`solution = grid` aliases): the caller's grid after the call and the
returned solution are the same; on UNSAT the grid is unchanged, while on SAT
every originally-blank in-range cell of the caller's grid has been
overwritten with a non-zero value. -/
theorem solve_sudoku_aliases_and_mutates (g : List (List Nat))
    (oracle : Option (Nat → Bool)) :
    (Sudoku.solve_sudoku g oracle).1 = (Sudoku.solve_sudoku g oracle).2 ∧
    (oracle = none → (Sudoku.solve_sudoku g oracle).1 = g) ∧
    (∀ a, oracle = some a → satCNF a (Sudoku.sudoku_cnf g) = true →
      (∀ row ∈ g, row.length = g.length) →
      ∀ r c, r < g.length → c < g.length → Sudoku.cellAt g r c = 0 →
        Sudoku.cellAt (Sudoku.solve_sudoku g oracle).1 r c ≠ 0) := by
  refine ⟨?_, ?_, ?_⟩
  · cases oracle <;> rfl
  · intro h
    subst h
    rfl
  · intro a hor hsat hrect r c hr hc hz
    subst hor
    show Sudoku.cellAt (Sudoku.decodeGrid g a) r c ≠ 0
    rw [Sudoku.sudoku_cnf, satCNF_append_iff, satCNF_append_iff,
      satCNF_append_iff, satCNF_append_iff] at hsat
    obtain ⟨⟨⟨⟨hcellS, hrest1⟩, hrest2⟩, hrest3⟩, hrest4⟩ := hsat
    obtain ⟨hex, huniq⟩ := Sudoku.cellFacts a g.length hcellS r c hr hc
    obtain ⟨w, hwdec, hw1, hwn, haw⟩ :=
      Sudoku.decodeCell_eq a g.length r c (Sudoku.cellAt g r c) hex
    have hrowget : g.getD r [] = g[r] := by
      rw [List.getD_eq_getElem?_getD, List.getElem?_eq_getElem hr]
      rfl
    have hrowlen : (g.getD r []).length = g.length := by
      rw [hrowget]
      exact hrect _ (List.getElem_mem hr)
    rw [Sudoku.decodeGrid_cellAt g a r c hr hrowlen hc, hwdec]
    omega

/-- Witness for the amended C7 at the grid `[[0]]` with a SAT outcome. -/
theorem solve_sudoku_aliases_and_mutates_witness :
    (Sudoku.solve_sudoku [[0]] (some fun v => v == 1)).1 =
      (Sudoku.solve_sudoku [[0]] (some fun v => v == 1)).2 ∧
    (Sudoku.solve_sudoku [[0]] none).1 = [[0]] ∧
    Sudoku.cellAt (Sudoku.solve_sudoku [[0]] (some fun v => v == 1)).1 0 0 ≠ 0 :=
  ⟨(solve_sudoku_aliases_and_mutates [[0]] (some fun v => v == 1)).1,
    (solve_sudoku_aliases_and_mutates [[0]] none).2.1 rfl,
    (solve_sudoku_aliases_and_mutates [[0]] (some fun v => v == 1)).2.2
      (fun v => v == 1) rfl (by decide) (by decide) 0 0 (by decide) (by decide)
      (by decide)⟩

/-- C8: the decoders silently tolerate a model with no true literal for a
family-and-index.  With a SAT verdict but an all-false model, `solve_sudoku`
returns the untouched grid (indistinguishable from its UNSAT result) and the
Sokoban `decode` returns the empty move list (indistinguishable from an
all-stay plan); no decode error distinct from UNSAT exists anywhere. -/
theorem decoders_tolerate_missing_true_literal :
    Sudoku.solve_sudoku [[0]] (some fun _ => false) = ([[0]], [[0]]) ∧
    Sokoban.decode ((List.range 11).map fun i => -((i : Int) + 1))
      (Sokoban.mkEncoder [['P']] 0) = [] := by
  constructor
  · decide
  · decide

/-- C9: a grid with no `'P'` marker parses without any error
(`player_start` stays `none`, construction succeeds) and the failure only
surfaces later, when `encode` subscripts `self.player_start` (a `TypeError`,
modelled by `none`) — there is no descriptive parse-time error. -/
theorem no_player_detected_only_in_encode :
    (Sokoban.mkEncoder [['.']] 0).player_start = none ∧
    (Sokoban.mkEncoder [['.']] 0).encode = none := by
  constructor
  · decide
  · rfl

/-- C10 counterexample: `prop` has no bounds check: called on the 4×4 grid
with the out-of-range value 5 it raises nothing and returns the ordinary
variable id 5 — which moreover collides with the in-bounds variable
`prop 4 0 1 1`. -/
theorem prop_returns_id_out_of_bounds :
    Sudoku.propCall 4 0 0 5 = some 5 ∧ Sudoku.propCall 4 0 1 1 = some 5 := by
  constructor
  · rfl
  · rfl

/-- C10 amended: the four Sokoban variable-id functions fail fast (their
asserts raise, `none`) exactly on out-of-bounds arguments and return the id
otherwise, while the Sudoku `prop` performs no bounds check and returns an
id for every argument. -/
theorem var_id_calls_fail_fast (N M L B x y t num b n r c w : Nat) :
    (¬(x < N ∧ y < M) → Sokoban.var_goal_call N M x y = none) ∧
    ((x < N ∧ y < M) →
      Sokoban.var_goal_call N M x y = some (Sokoban.var_goal M x y)) ∧
    (¬(x < N ∧ y < M ∧ t < L) → Sokoban.var_player_call N M L x y t = none) ∧
    ((x < N ∧ y < M ∧ t < L) →
      Sokoban.var_player_call N M L x y t = some (Sokoban.var_player N M x y t)) ∧
    (¬(1 ≤ num ∧ num ≤ 9 ∧ t < L) → Sokoban.var_move_call N M L num t = none) ∧
    ((1 ≤ num ∧ num ≤ 9 ∧ t < L) →
      Sokoban.var_move_call N M L num t = some (Sokoban.var_move N M L num t)) ∧
    (¬(1 ≤ b ∧ b ≤ B ∧ x < N ∧ y < M ∧ t < L) →
      Sokoban.var_box_call N M L B b x y t = none) ∧
    ((1 ≤ b ∧ b ≤ B ∧ x < N ∧ y < M ∧ t < L) →
      Sokoban.var_box_call N M L B b x y t = some (Sokoban.var_box N M L B b x y t)) ∧
    Sudoku.propCall n r c w = some (Sudoku.prop n r c w) := by
  unfold Sokoban.var_goal_call Sokoban.var_player_call Sokoban.var_move_call
    Sokoban.var_box_call Sudoku.propCall
  refine ⟨fun h => if_neg h, fun h => if_pos h, fun h => if_neg h,
    fun h => if_pos h, fun h => if_neg h, fun h => if_pos h,
    fun h => if_neg h, fun h => if_pos h, rfl⟩

/-- Witness for the amended C10: an out-of-bounds call raises and an
in-bounds call returns the id, here for `var_goal` on a 2×2 grid. -/
theorem var_id_calls_fail_fast_witness :
    Sokoban.var_goal_call 2 2 5 0 = none ∧
    Sokoban.var_goal_call 2 2 1 1 = some 4 :=
  ⟨(var_id_calls_fail_fast 2 2 1 1 5 0 0 1 1 1 0 0 1).1 (by decide),
    (var_id_calls_fail_fast 2 2 1 1 1 1 0 1 1 1 0 0 1).2.1 (by decide)⟩

namespace Sokoban

theorem cell_lt (N M x y : Nat) (hx : x < N) (hy : y < M) : x * M + y < N * M := by
  calc x * M + y < x * M + M := by omega
    _ = (x + 1) * M := by ring
    _ ≤ N * M := Nat.mul_le_mul_right M hx

theorem var_player_eq (N M x y t : Nat) :
    var_player N M x y t = t * (N * M) + (x * M + y) + (N * M + 1) := by
  unfold var_player
  ring

theorem var_move_eq (N M L num t : Nat) :
    var_move N M L num t = (L + 1) * (N * M) + (9 * t + num) := by
  unfold var_move
  ring

theorem var_box_eq (N M L B b x y t : Nat) :
    var_box N M L B b x y t =
      (L + 1) * (N * M) + 9 * L +
        (t * (B * (N * M)) + ((b - 1) * (N * M) + (x * M + y))) + 1 := by
  unfold var_box
  ring

end Sokoban

/-- C2: each variable-id function (`prop` in the Sudoku solver; `var_goal`,
`var_player`, `var_move`, `var_box` in the Sokoban encoder) is injective on
its in-bounds domain; the Sokoban family ranges are contiguous, pairwise
disjoint, laid out as goal ids, then player-position ids, then action ids,
then box-position ids; and their union is exactly `[1, totalVars]`
(`prop` likewise bijects onto `[1, n^3]`). -/
theorem variable_scheme_bijective (n N M L B : Nat)
    (hn : 1 ≤ n) (hN : 1 ≤ N) (hM : 1 ≤ M) (hL : 1 ≤ L) :
    (∀ r c w r2 c2 w2, r < n → c < n → 1 ≤ w → w ≤ n →
      r2 < n → c2 < n → 1 ≤ w2 → w2 ≤ n →
      Sudoku.prop n r c w = Sudoku.prop n r2 c2 w2 →
      r = r2 ∧ c = c2 ∧ w = w2) ∧
    (∀ r c w, r < n → c < n → 1 ≤ w → w ≤ n →
      1 ≤ Sudoku.prop n r c w ∧ Sudoku.prop n r c w ≤ n * n * n) ∧
    (∀ v, 1 ≤ v → v ≤ n * n * n → ∃ r c w, r < n ∧ c < n ∧ 1 ≤ w ∧ w ≤ n ∧
      Sudoku.prop n r c w = v) ∧
    (∀ x y x2 y2, x < N → y < M → x2 < N → y2 < M →
      Sokoban.var_goal M x y = Sokoban.var_goal M x2 y2 → x = x2 ∧ y = y2) ∧
    (∀ x y t x2 y2 t2, x < N → y < M → t < L → x2 < N → y2 < M → t2 < L →
      Sokoban.var_player N M x y t = Sokoban.var_player N M x2 y2 t2 →
      x = x2 ∧ y = y2 ∧ t = t2) ∧
    (∀ num t num2 t2, 1 ≤ num → num ≤ 9 → t < L → 1 ≤ num2 → num2 ≤ 9 →
      t2 < L → Sokoban.var_move N M L num t = Sokoban.var_move N M L num2 t2 →
      num = num2 ∧ t = t2) ∧
    (∀ b x y t b2 x2 y2 t2, 1 ≤ b → b ≤ B → x < N → y < M → t < L →
      1 ≤ b2 → b2 ≤ B → x2 < N → y2 < M → t2 < L →
      Sokoban.var_box N M L B b x y t = Sokoban.var_box N M L B b2 x2 y2 t2 →
      b = b2 ∧ x = x2 ∧ y = y2 ∧ t = t2) ∧
    (∀ x y, x < N → y < M →
      1 ≤ Sokoban.var_goal M x y ∧ Sokoban.var_goal M x y ≤ N * M) ∧
    (∀ x y t, x < N → y < M → t < L →
      N * M < Sokoban.var_player N M x y t ∧
      Sokoban.var_player N M x y t ≤ (L + 1) * N * M) ∧
    (∀ num t, 1 ≤ num → num ≤ 9 → t < L →
      (L + 1) * N * M < Sokoban.var_move N M L num t ∧
      Sokoban.var_move N M L num t ≤ (L + 1) * N * M + 9 * L) ∧
    (∀ b x y t, 1 ≤ b → b ≤ B → x < N → y < M → t < L →
      (L + 1) * N * M + 9 * L < Sokoban.var_box N M L B b x y t ∧
      Sokoban.var_box N M L B b x y t ≤ Sokoban.totalVars N M L B) ∧
    (∀ v, 1 ≤ v → v ≤ Sokoban.totalVars N M L B →
      (∃ x y, x < N ∧ y < M ∧ Sokoban.var_goal M x y = v) ∨
      (∃ x y t, x < N ∧ y < M ∧ t < L ∧ Sokoban.var_player N M x y t = v) ∨
      (∃ num t, 1 ≤ num ∧ num ≤ 9 ∧ t < L ∧ Sokoban.var_move N M L num t = v) ∨
      (∃ b x y t, 1 ≤ b ∧ b ≤ B ∧ x < N ∧ y < M ∧ t < L ∧
        Sokoban.var_box N M L B b x y t = v)) := by
  have hNM : 0 < N * M := Nat.mul_pos hN hM
  refine ⟨?_, ?_, ?_, ?_, ?_, ?_, ?_, ?_, ?_, ?_, ?_, ?_⟩
  · intro r c w r2 c2 w2 hr hc hw1 hwn hr2 hc2 hw21 hw2n heq
    unfold Sudoku.prop at heq
    have hcell : r * n + c < n * n := Sokoban.cell_lt n n r c hr hc
    have hcell2 : r2 * n + c2 < n * n := Sokoban.cell_lt n n r2 c2 hr2 hc2
    have heq2 : (r * n + c) * n + (w - 1) = (r2 * n + c2) * n + (w2 - 1) := by
      omega
    obtain ⟨hq, hw'⟩ :=
      mixedRadix_inj (r * n + c) (w - 1) (r2 * n + c2) (w2 - 1) n
        (by omega) (by omega) heq2
    obtain ⟨hr', hc'⟩ := mixedRadix_inj r c r2 c2 n hc hc2 hq
    exact ⟨hr', hc', by omega⟩
  · intro r c w hr hc hw1 hwn
    unfold Sudoku.prop
    have hcell : r * n + c < n * n := Sokoban.cell_lt n n r c hr hc
    constructor
    · omega
    · have h2 : ((r * n + c) + 1) * n ≤ (n * n) * n :=
        Nat.mul_le_mul_right n hcell
      have h3 : ((r * n + c) + 1) * n = (r * n + c) * n + n := by ring
      have h4 : (n * n) * n = n * n * n := by ring
      omega
  · intro v hv1 hvn
    obtain ⟨q, rem, hqr, hrem⟩ : ∃ q rem, v - 1 = q * n + rem ∧ rem < n := by
      refine ⟨(v - 1) / n, (v - 1) % n, ?_, Nat.mod_lt _ (by omega)⟩
      have h1 := Nat.div_add_mod (v - 1) n
      have h2 : (v - 1) / n * n = n * ((v - 1) / n) := Nat.mul_comm _ _
      omega
    obtain ⟨r, c, hrc, hc⟩ : ∃ r c, q = r * n + c ∧ c < n := by
      refine ⟨q / n, q % n, ?_, Nat.mod_lt _ (by omega)⟩
      have h1 := Nat.div_add_mod q n
      have h2 : q / n * n = n * (q / n) := Nat.mul_comm _ _
      omega
    have h4 : (n * n) * n = n * n * n := by ring
    have hq : q < n * n := by
      by_contra hge
      push_neg at hge
      have : (n * n) * n ≤ q * n := Nat.mul_le_mul_right n hge
      omega
    have hr : r < n := by
      by_contra hge
      push_neg at hge
      have : n * n ≤ r * n := Nat.mul_le_mul_right n hge
      omega
    refine ⟨r, c, rem + 1, hr, hc, by omega, by omega, ?_⟩
    unfold Sudoku.prop
    have hqn : (r * n + c) * n = q * n := by rw [hrc]
    omega
  · intro x y x2 y2 hx hy hx2 hy2 heq
    unfold Sokoban.var_goal at heq
    exact mixedRadix_inj x y x2 y2 M hy hy2 (by omega)
  · intro x y t x2 y2 t2 hx hy ht hx2 hy2 ht2 heq
    rw [Sokoban.var_player_eq, Sokoban.var_player_eq] at heq
    have hcell : x * M + y < N * M := Sokoban.cell_lt N M x y hx hy
    have hcell2 : x2 * M + y2 < N * M := Sokoban.cell_lt N M x2 y2 hx2 hy2
    obtain ⟨ht', hcelleq⟩ :=
      mixedRadix_inj t (x * M + y) t2 (x2 * M + y2) (N * M) hcell hcell2
        (by omega)
    obtain ⟨hx', hy'⟩ := mixedRadix_inj x y x2 y2 M hy hy2 hcelleq
    exact ⟨hx', hy', ht'⟩
  · intro num t num2 t2 h1 h9 ht h12 h92 ht2 heq
    rw [Sokoban.var_move_eq, Sokoban.var_move_eq] at heq
    obtain ⟨ht', hnum⟩ :=
      mixedRadix_inj t (num - 1) t2 (num2 - 1) 9 (by omega) (by omega)
        (by omega)
    exact ⟨by omega, ht'⟩
  · intro b x y t b2 x2 y2 t2 hb1 hbB hx hy ht hb21 hb2B hx2 hy2 ht2 heq
    rw [Sokoban.var_box_eq, Sokoban.var_box_eq] at heq
    have hcell : x * M + y < N * M := Sokoban.cell_lt N M x y hx hy
    have hcell2 : x2 * M + y2 < N * M := Sokoban.cell_lt N M x2 y2 hx2 hy2
    have hinner : (b - 1) * (N * M) + (x * M + y) < B * (N * M) := by
      have hub : ((b - 1) + 1) * (N * M) ≤ B * (N * M) :=
        Nat.mul_le_mul_right _ (by omega)
      have hexp : ((b - 1) + 1) * (N * M) = (b - 1) * (N * M) + N * M := by
        ring
      omega
    have hinner2 : (b2 - 1) * (N * M) + (x2 * M + y2) < B * (N * M) := by
      have hub : ((b2 - 1) + 1) * (N * M) ≤ B * (N * M) :=
        Nat.mul_le_mul_right _ (by omega)
      have hexp : ((b2 - 1) + 1) * (N * M) = (b2 - 1) * (N * M) + N * M := by
        ring
      omega
    obtain ⟨ht', hrest⟩ :=
      mixedRadix_inj t ((b - 1) * (N * M) + (x * M + y)) t2
        ((b2 - 1) * (N * M) + (x2 * M + y2)) (B * (N * M)) hinner hinner2
        (by omega)
    obtain ⟨hb', hcelleq⟩ :=
      mixedRadix_inj (b - 1) (x * M + y) (b2 - 1) (x2 * M + y2) (N * M)
        hcell hcell2 hrest
    obtain ⟨hx', hy'⟩ := mixedRadix_inj x y x2 y2 M hy hy2 hcelleq
    exact ⟨by omega, hx', hy', ht'⟩
  · intro x y hx hy
    unfold Sokoban.var_goal
    have hcell : x * M + y < N * M := Sokoban.cell_lt N M x y hx hy
    omega
  · intro x y t hx hy ht
    rw [Sokoban.var_player_eq]
    have hcell : x * M + y < N * M := Sokoban.cell_lt N M x y hx hy
    have hub : (t + 1) * (N * M) ≤ L * (N * M) :=
      Nat.mul_le_mul_right _ (by omega)
    have hexp : (t + 1) * (N * M) = t * (N * M) + N * M := by ring
    have hlink : (L + 1) * N * M = L * (N * M) + N * M := by ring
    omega
  · intro num t h1 h9 ht
    rw [Sokoban.var_move_eq]
    have hlink : (L + 1) * N * M = (L + 1) * (N * M) := by ring
    omega
  · intro b x y t hb1 hbB hx hy ht
    rw [Sokoban.var_box_eq]
    have hcell : x * M + y < N * M := Sokoban.cell_lt N M x y hx hy
    have hinner : (b - 1) * (N * M) + (x * M + y) < B * (N * M) := by
      have hub : ((b - 1) + 1) * (N * M) ≤ B * (N * M) :=
        Nat.mul_le_mul_right _ (by omega)
      have hexp : ((b - 1) + 1) * (N * M) = (b - 1) * (N * M) + N * M := by
        ring
      omega
    have hub : (t + 1) * (B * (N * M)) ≤ L * (B * (N * M)) :=
      Nat.mul_le_mul_right _ (by omega)
    have hexp : (t + 1) * (B * (N * M)) = t * (B * (N * M)) + B * (N * M) := by
      ring
    have hlink : (L + 1) * N * M + 9 * L = (L + 1) * (N * M) + 9 * L := by ring
    have htot : Sokoban.totalVars N M L B =
        (L + 1) * (N * M) + 9 * L + L * (B * (N * M)) := by
      unfold Sokoban.totalVars
      ring
    omega
  · intro v hv1 hvtot
    have htot : Sokoban.totalVars N M L B =
        (L + 1) * (N * M) + 9 * L + L * (B * (N * M)) := by
      unfold Sokoban.totalVars
      ring
    have hlink : (L + 1) * N * M = (L + 1) * (N * M) := by ring
    have hlink2 : (L + 1) * (N * M) = L * (N * M) + N * M := by ring
    rcases le_or_lt v (N * M) with hcase | hcase
    · left
      refine ⟨(v - 1) / M, (v - 1) % M, ?_, Nat.mod_lt _ hM, ?_⟩
      · by_contra hge
        push_neg at hge
        have h5 : N * M ≤ ((v - 1) / M) * M := Nat.mul_le_mul_right M hge
        have h1 := Nat.div_add_mod (v - 1) M
        have h2 : (v - 1) / M * M = M * ((v - 1) / M) := Nat.mul_comm _ _
        omega
      · unfold Sokoban.var_goal
        have h1 := Nat.div_add_mod (v - 1) M
        have h2 : (v - 1) / M * M = M * ((v - 1) / M) := Nat.mul_comm _ _
        omega
    rcases le_or_lt v ((L + 1) * N * M) with hcase2 | hcase2
    · right
      left
      obtain ⟨t, rest, hdecomp, hrest⟩ : ∃ t rest,
          v - N * M - 1 = t * (N * M) + rest ∧ rest < N * M := by
        refine ⟨(v - N * M - 1) / (N * M), (v - N * M - 1) % (N * M), ?_,
          Nat.mod_lt _ hNM⟩
        have h1 := Nat.div_add_mod (v - N * M - 1) (N * M)
        have h2 : (v - N * M - 1) / (N * M) * (N * M) =
            (N * M) * ((v - N * M - 1) / (N * M)) := Nat.mul_comm _ _
        omega
      obtain ⟨x, y, hxy, hy⟩ : ∃ x y, rest = x * M + y ∧ y < M := by
        refine ⟨rest / M, rest % M, ?_, Nat.mod_lt _ hM⟩
        have h1 := Nat.div_add_mod rest M
        have h2 : rest / M * M = M * (rest / M) := Nat.mul_comm _ _
        omega
      have ht : t < L := by
        by_contra hge
        push_neg at hge
        have h5 : L * (N * M) ≤ t * (N * M) := Nat.mul_le_mul_right _ hge
        omega
      have hx : x < N := by
        by_contra hge
        push_neg at hge
        have h5 : N * M ≤ x * M := Nat.mul_le_mul_right _ hge
        omega
      refine ⟨x, y, t, hx, hy, ht, ?_⟩
      rw [Sokoban.var_player_eq]
      omega
    rcases le_or_lt v ((L + 1) * N * M + 9 * L) with hcase3 | hcase3
    · right
      right
      left
      refine ⟨(v - (L + 1) * N * M - 1) % 9 + 1, (v - (L + 1) * N * M - 1) / 9,
        by omega, by omega, by omega, ?_⟩
      rw [Sokoban.var_move_eq]
      omega
    · right
      right
      right
      have hBNM : 0 < B * (N * M) := by
        rcases Nat.eq_zero_or_pos (B * (N * M)) with h0 | h0
        · exfalso
          have h5 : L * (B * (N * M)) = 0 := by rw [h0]; ring
          omega
        · exact h0
      obtain ⟨t, rest, hdecomp, hrest⟩ : ∃ t rest,
          v - ((L + 1) * N * M + 9 * L) - 1 = t * (B * (N * M)) + rest ∧
          rest < B * (N * M) := by
        refine ⟨(v - ((L + 1) * N * M + 9 * L) - 1) / (B * (N * M)),
          (v - ((L + 1) * N * M + 9 * L) - 1) % (B * (N * M)), ?_,
          Nat.mod_lt _ hBNM⟩
        have h1 := Nat.div_add_mod (v - ((L + 1) * N * M + 9 * L) - 1)
          (B * (N * M))
        have h2 : (v - ((L + 1) * N * M + 9 * L) - 1) / (B * (N * M)) *
            (B * (N * M)) = (B * (N * M)) *
            ((v - ((L + 1) * N * M + 9 * L) - 1) / (B * (N * M))) :=
          Nat.mul_comm _ _
        omega
      obtain ⟨bb, cell, hbc, hcell⟩ : ∃ bb cell,
          rest = bb * (N * M) + cell ∧ cell < N * M := by
        refine ⟨rest / (N * M), rest % (N * M), ?_, Nat.mod_lt _ hNM⟩
        have h1 := Nat.div_add_mod rest (N * M)
        have h2 : rest / (N * M) * (N * M) = (N * M) * (rest / (N * M)) :=
          Nat.mul_comm _ _
        omega
      obtain ⟨x, y, hxy, hy⟩ : ∃ x y, cell = x * M + y ∧ y < M := by
        refine ⟨cell / M, cell % M, ?_, Nat.mod_lt _ hM⟩
        have h1 := Nat.div_add_mod cell M
        have h2 : cell / M * M = M * (cell / M) := Nat.mul_comm _ _
        omega
      have ht : t < L := by
        by_contra hge
        push_neg at hge
        have h5 : L * (B * (N * M)) ≤ t * (B * (N * M)) :=
          Nat.mul_le_mul_right _ hge
        omega
      have hbB : bb < B := by
        by_contra hge
        push_neg at hge
        have h5 : B * (N * M) ≤ bb * (N * M) := Nat.mul_le_mul_right _ hge
        omega
      have hx : x < N := by
        by_contra hge
        push_neg at hge
        have h5 : N * M ≤ x * M := Nat.mul_le_mul_right _ hge
        omega
      refine ⟨bb + 1, x, y, t, by omega, by omega, hx, hy, ht, ?_⟩
      rw [Sokoban.var_box_eq]
      have hsimp : bb + 1 - 1 = bb := by omega
      rw [hsimp]
      omega

/-- Witness for C2 at `n = 2`, `N = M = 2`, `L = 2`, `B = 1`: the player
family sits strictly between the goal block and the action block. -/
theorem variable_scheme_bijective_witness :
    2 * 2 < Sokoban.var_player 2 2 0 1 1 ∧
    Sokoban.var_player 2 2 0 1 1 ≤ (2 + 1) * 2 * 2 :=
  (variable_scheme_bijective 2 2 2 2 1 (by decide) (by decide) (by decide)
    (by decide)).2.2.2.2.2.2.2.2.1 0 1 1 (by decide) (by decide) (by decide)

theorem getD_map_range (f : Nat → Int) (n i : Nat) (h : i < n) :
    ((List.range n).map f).getD i 0 = f i := by
  rw [List.getD_eq_getElem?_getD]
  simp [h]

theorem flatMap_range_map_eq {α : Type} (N M : Nat) (g : Nat → Nat → α) :
    (List.range N).flatMap (fun x => (List.range M).map fun y => g x y) =
      (List.range (N * M)).map fun k => g (k / M) (k % M) := by
  induction N with
  | zero => simp
  | succ N ih =>
    rw [List.range_succ, List.flatMap_append, ih]
    have h1 : (N + 1) * M = N * M + M := by ring
    rw [h1, List.range_add, List.map_append, List.map_map]
    congr 1
    · simp only [List.flatMap_cons, List.flatMap_nil, List.append_nil]
      apply List.map_congr_left
      intro j hj
      rw [List.mem_range] at hj
      have e : N * M + j = M * N + j := by ring
      have hd : (N * M + j) / M = N := by
        rw [e, Nat.mul_add_div (by omega), Nat.div_eq_of_lt hj]
        omega
      have hm : (N * M + j) % M = j := by
        rw [e, Nat.mul_add_mod]
        exact Nat.mod_eq_of_lt hj
      show g N j = g ((N * M + j) / M) ((N * M + j) % M)
      rw [hd, hm]

namespace Sokoban

theorem var_player_pos (N M x y t : Nat) : 0 < var_player N M x y t := by
  unfold var_player
  omega

theorem var_move_pos (N M L num t : Nat) (h : 1 ≤ num) :
    0 < var_move N M L num t := by
  unfold var_move
  omega

theorem var_box_pos (N M L B b x y t : Nat) : 0 < var_box N M L B b x y t := by
  unfold var_box
  omega

/-- Distinct times give distinct box-position variables (for in-bounds
coordinates and box indices). -/
theorem var_box_time_inj (N M L B b x y t b2 x2 y2 t2 : Nat)
    (hb1 : 1 ≤ b) (hbB : b ≤ B) (hx : x < N) (hy : y < M)
    (hb21 : 1 ≤ b2) (hb2B : b2 ≤ B) (hx2 : x2 < N) (hy2 : y2 < M)
    (heq : var_box N M L B b x y t = var_box N M L B b2 x2 y2 t2) :
    t = t2 := by
  rw [var_box_eq, var_box_eq] at heq
  have hcell : x * M + y < N * M := cell_lt N M x y hx hy
  have hcell2 : x2 * M + y2 < N * M := cell_lt N M x2 y2 hx2 hy2
  have hinner : (b - 1) * (N * M) + (x * M + y) < B * (N * M) := by
    have hub : ((b - 1) + 1) * (N * M) ≤ B * (N * M) :=
      Nat.mul_le_mul_right _ (by omega)
    have hexp : ((b - 1) + 1) * (N * M) = (b - 1) * (N * M) + N * M := by ring
    omega
  have hinner2 : (b2 - 1) * (N * M) + (x2 * M + y2) < B * (N * M) := by
    have hub : ((b2 - 1) + 1) * (N * M) ≤ B * (N * M) :=
      Nat.mul_le_mul_right _ (by omega)
    have hexp : ((b2 - 1) + 1) * (N * M) = (b2 - 1) * (N * M) + N * M := by
      ring
    omega
  exact (mixedRadix_inj t ((b - 1) * (N * M) + (x * M + y)) t2
    ((b2 - 1) * (N * M) + (x2 * M + y2)) (B * (N * M)) hinner hinner2
    (by omega)).1

/-- From the per-time uniqueness clauses: the totality clause and the
pairwise exclusivity clauses of box `b` at time `t` are satisfied. -/
theorem uniqueClauses_boxFacts (N M L B : Nat) (a : Nat → Bool)
    (h : satCNF a (uniqueClauses N M L B) = true) (b t : Nat)
    (hb1 : 1 ≤ b) (hbB : b ≤ B) (ht : t < L) :
    satClause a (boxCells N M L B b t) = true ∧
    satCNF a (pairwise_neg (boxCells N M L B b t)) = true := by
  unfold uniqueClauses at h
  rw [satCNF_flatMap_iff] at h
  have h2 := h t (List.mem_range.mpr ht)
  rw [satCNF_append_iff] at h2
  obtain ⟨hplayer, hbox⟩ := h2
  rw [satCNF_flatMap_iff] at hbox
  have h3 := hbox (b - 1) (List.mem_range.mpr (by omega))
  rw [satCNF_cons_iff] at h3
  have hb : b - 1 + 1 = b := by omega
  rw [hb] at h3
  exact h3

end Sokoban

namespace Sokoban

/-- C3: under the per-time uniqueness clauses, when a push is taken at step
`t` from the player's cell `(x, y)` and box `b` occupies the cell ahead
`(nx, ny)` at `t - 1`, the guard literals of `b`'s per-cell frame clauses
(`b` at some other cell at `t - 1`) are all false, so `b`'s moved clause and
all its frame clauses are simultaneously satisfiable: the assignment that
additionally makes `b` occupy the push destination `(dx, dy)` at `t`
satisfies them all — no box is forced both to move and to stay. -/
theorem push_moved_and_frame_compatible (N M L B : Nat) (a : Nat → Bool)
    (b x y t move nx ny dx dy : Nat)
    (hb1 : 1 ≤ b) (hbB : b ≤ B) (ht1 : 1 ≤ t) (htL : t < L) (hmove : move < 4)
    (hx : x < N) (hy : y < M) (hnx : nx < N) (hny : ny < M)
    (hdx : dx < N) (hdy : dy < M)
    (hnp : newPos move ((x : Int), (y : Int)) = ((nx : Int), (ny : Int)))
    (hdp : newPos move ((nx : Int), (ny : Int)) = ((dx : Int), (dy : Int)))
    (huniq : satCNF a (uniqueClauses N M L B) = true)
    (hmv : a (var_move N M L (move + 5) t) = true)
    (hpl : a (var_player N M x y (t - 1)) = true)
    (hbox : a (var_box N M L B b nx ny (t - 1)) = true) :
    (∀ px py, px < N → py < M → (px, py) ≠ (nx, ny) →
      a (var_box N M L B b px py (t - 1)) = false) ∧
    ∃ a2 : Nat → Bool,
      (∀ v, v ≠ var_box N M L B b dx dy t → a2 v = a v) ∧
      satClause a2 (pushMovedBox N M L B move t b x y nx ny dx dy) = true ∧
      ∀ px py, px < N → py < M → (px, py) ≠ (nx, ny) →
        satClause a2 (pushFrame N M L B move t b x y px py) = true := by
  obtain ⟨htotal, hpair⟩ :=
    uniqueClauses_boxFacts N M L B a huniq b (t - 1) hb1 hbB (by omega)
  have hcells : boxCells N M L B b (t - 1) =
      (List.range (N * M)).map fun k =>
        (var_box N M L B b (k / M) (k % M) (t - 1) : Int) := by
    unfold boxCells
    exact flatMap_range_map_eq N M _
  have hlen : ((List.range (N * M)).map fun k =>
      (var_box N M L B b (k / M) (k % M) (t - 1) : Int)).length = N * M := by
    simp
  rw [hcells, pairwise_neg_sat_iff] at hpair
  have hguard : ∀ px py, px < N → py < M → (px, py) ≠ (nx, ny) →
      a (var_box N M L B b px py (t - 1)) = false := by
    intro px py hpx hpy hnecell
    have hI : px * M + py < N * M := cell_lt N M px py hpx hpy
    have hJ : nx * M + ny < N * M := cell_lt N M nx ny hnx hny
    have hIJ : px * M + py ≠ nx * M + ny := by
      intro h
      obtain ⟨h1, h2⟩ := mixedRadix_inj px py nx ny M hpy hny h
      exact hnecell (by rw [h1, h2])
    obtain ⟨dp1, dp2⟩ := mixedRadix_div_mod px py M hpy
    obtain ⟨dn1, dn2⟩ := mixedRadix_div_mod nx ny M hny
    by_contra hne0
    have hpx2 : a (var_box N M L B b px py (t - 1)) = true := by
      revert hne0
      cases a (var_box N M L B b px py (t - 1)) <;> simp
    rcases Nat.lt_or_ge (px * M + py) (nx * M + ny) with hlt | hge
    · have hp := hpair (px * M + py) (nx * M + ny) hlt (by rw [hlen]; exact hJ)
      rw [getD_map_range _ _ _ (by omega), getD_map_range _ _ _ (by omega)]
        at hp
      rw [dp1, dp2, dn1, dn2] at hp
      rw [satLit_neg _ _ (var_box_pos N M L B b px py (t - 1)),
        satLit_neg _ _ (var_box_pos N M L B b nx ny (t - 1)), hpx2, hbox] at hp
      simp at hp
    · have hlt2 : nx * M + ny < px * M + py := by omega
      have hp := hpair (nx * M + ny) (px * M + py) hlt2 (by rw [hlen]; exact hI)
      rw [getD_map_range _ _ _ (by omega), getD_map_range _ _ _ (by omega)]
        at hp
      rw [dp1, dp2, dn1, dn2] at hp
      rw [satLit_neg _ _ (var_box_pos N M L B b nx ny (t - 1)),
        satLit_neg _ _ (var_box_pos N M L B b px py (t - 1)), hpx2, hbox] at hp
      simp at hp
  refine ⟨hguard,
    (fun v => if v = var_box N M L B b dx dy t then true else a v), ?_, ?_, ?_⟩
  · intro v hv
    simp [hv]
  · rw [satClause_iff]
    refine ⟨(var_box N M L B b dx dy t : Int), ?_, ?_⟩
    · unfold pushMovedBox
      simp
    · rw [satLit_pos _ _ (var_box_pos N M L B b dx dy t)]
      simp
  · intro px py hpx hpy hnecell
    rw [satClause_iff]
    refine ⟨-(var_box N M L B b px py (t - 1) : Int), ?_, ?_⟩
    · unfold pushFrame
      simp
    · rw [satLit_neg _ _ (var_box_pos N M L B b px py (t - 1))]
      have hne2 : var_box N M L B b px py (t - 1) ≠ var_box N M L B b dx dy t := by
        intro h
        have := var_box_time_inj N M L B b px py (t - 1) b dx dy t hb1 hbB hpx
          hpy hb1 hbB hdx hdy h
        omega
      show (!(if var_box N M L B b px py (t - 1) = var_box N M L B b dx dy t
          then true else a (var_box N M L B b px py (t - 1)))) = true
      rw [if_neg hne2, hguard px py hpx hpy hnecell]
      rfl

/-- Witness for C3 on a 1×3 corridor with one box, pushing right at `t = 1`:
the model satisfies the uniqueness clauses and the guard literals of the
frame clauses of the pushed box are false. -/
theorem push_moved_and_frame_compatible_witness :
    satCNF (fun v => v == 4 || v == 8 || v == 24 || v == 29 || v == 33)
      (Sokoban.uniqueClauses 1 3 2 1) = true ∧
    (∀ px py, px < 1 → py < 3 → (px, py) ≠ (0, 1) →
      (fun v => v == 4 || v == 8 || v == 24 || v == 29 || v == 33)
        (Sokoban.var_box 1 3 2 1 1 px py (1 - 1)) = false) :=
  ⟨by decide,
    (push_moved_and_frame_compatible 1 3 2 1
      (fun v => v == 4 || v == 8 || v == 24 || v == 29 || v == 33)
      1 0 0 1 1 0 1 0 2 (by decide) (by decide) (by decide) (by decide)
      (by decide) (by decide) (by decide) (by decide) (by decide) (by decide)
      (by decide) (by decide) (by decide) (by decide) (by decide) (by decide)
      (by decide)).1⟩

end Sokoban

theorem filterMap_flatMap_eq {α β γ : Type} (l : List α) (g : α → List β)
    (f : β → Option γ) :
    (l.flatMap g).filterMap f = l.flatMap fun x => (g x).filterMap f := by
  induction l with
  | nil => rfl
  | cons x xs ih => simp [List.flatMap_cons, List.filterMap_append, ih]

theorem filterMap_eq_flatMap_toList {α β : Type} (l : List α)
    (g : α → Option β) :
    l.filterMap g = l.flatMap fun x => (g x).toList := by
  induction l with
  | nil => rfl
  | cons x xs ih => cases h : g x <;> simp [List.filterMap_cons, h, ih]

theorem range'_mul_split (base k L : Nat) :
    List.range' base (k * L) =
      (List.range L).flatMap fun t => List.range' (base + k * t) k := by
  induction L with
  | zero => simp
  | succ L ih =>
    rw [List.range_succ, List.flatMap_append]
    rw [show k * (L + 1) = k + k * L by ring]
    rw [← List.range'_append_1 base (k * L) k]
    rw [ih]
    simp

namespace Sokoban

/-- From the exactly-one-action clauses: at each step some action code in
`1..9` is true and no two are. -/
theorem actionFacts (N M L : Nat) (a : Nat → Bool)
    (h : satCNF a (actionClauses N M L) = true) (t : Nat) (ht : t < L) :
    (∃ num, 1 ≤ num ∧ num ≤ 9 ∧ a (var_move N M L num t) = true) ∧
    ∀ i j, 1 ≤ i → i < j → j ≤ 9 →
      ¬(a (var_move N M L i t) = true ∧ a (var_move N M L j t) = true) := by
  unfold actionClauses at h
  rw [satCNF_flatMap_iff] at h
  have h2 := h t (List.mem_range.mpr ht)
  rw [satCNF_append_iff] at h2
  obtain ⟨hpairs, htot⟩ := h2
  constructor
  · rw [satCNF_singleton_iff, satClause_iff] at htot
    obtain ⟨l, hl, hsat⟩ := htot
    rw [List.mem_map] at hl
    obtain ⟨num, hnum, rfl⟩ := hl
    rw [List.mem_range'_1] at hnum
    exact ⟨num, hnum.1, by omega,
      by rwa [satLit_pos a _ (var_move_pos N M L num t hnum.1)] at hsat⟩
  · rintro i j hi hij hj ⟨hai, haj⟩
    rw [satCNF_flatMap_iff] at hpairs
    have h3 := hpairs i (by rw [List.mem_range'_1]; omega)
    rw [satCNF_map_iff] at h3
    have h4 := h3 j (by rw [List.mem_range'_1]; omega)
    rw [satClause_iff] at h4
    obtain ⟨l, hl, hsat⟩ := h4
    have hl2 : l = -(var_move N M L i t : Int) ∨
        l = -(var_move N M L j t : Int) := by
      simpa using hl
    rcases hl2 with rfl | rfl
    · rw [satLit_neg a _ (var_move_pos N M L i t hi), hai] at hsat
      simp at hsat
    · rw [satLit_neg a _ (var_move_pos N M L j t (by omega)), haj] at hsat
      simp at hsat

/-- The unique-action form of `actionFacts`. -/
theorem actionUnique (N M L : Nat) (a : Nat → Bool)
    (h : satCNF a (actionClauses N M L) = true) (t : Nat) (ht : t < L) :
    ∃ num0, 1 ≤ num0 ∧ num0 ≤ 9 ∧ a (var_move N M L num0 t) = true ∧
      ∀ k, 1 ≤ k → k ≤ 9 → k ≠ num0 → a (var_move N M L k t) = false := by
  obtain ⟨⟨num0, h1, h9, htr⟩, hpairw⟩ := actionFacts N M L a h t ht
  refine ⟨num0, h1, h9, htr, ?_⟩
  intro k hk1 hk9 hkne
  by_contra hktrue
  have hktrue2 : a (var_move N M L k t) = true := by
    revert hktrue
    cases a (var_move N M L k t) <;> simp
  rcases Nat.lt_or_ge k num0 with hlt | hge
  · exact hpairw k num0 hk1 hlt h9 ⟨hktrue2, htr⟩
  · exact hpairw num0 k h1 (by omega) hk9 ⟨htr, hktrue2⟩

/-- `find?` over the action codes `1..9` returns the unique true one. -/
theorem find?_action_unique (f : Nat → Bool) (num0 : Nat) (h1 : 1 ≤ num0)
    (h9 : num0 ≤ 9) (htr : f num0 = true)
    (hf : ∀ k, 1 ≤ k → k ≤ 9 → k ≠ num0 → f k = false) :
    (List.range' 1 9).find? f = some num0 := by
  have hexp : List.range' 1 9 = [1, 2, 3, 4, 5, 6, 7, 8, 9] := by decide
  rw [hexp]
  interval_cases num0 <;> simp_all [List.find?_cons]

/-- Evaluating one nine-index block of the decode scan: with a unique true
action code `num0` at step `t`, the block contributes exactly the direction
symbol of `num0` (and nothing when `num0` is the stay code 9). -/
theorem decode_block_eq (N M L t : Nat) (model : List Int) (a : Nat → Bool)
    (hlen : (L + 1) * N * M + 9 * L ≤ model.length)
    (hmodel : ∀ i, i < model.length →
      model.getD i 0 = if a (i + 1) then ((i : Int) + 1) else -((i : Int) + 1))
    (ht : t < L) (num0 : Nat) (h1 : 1 ≤ num0) (h9 : num0 ≤ 9)
    (htrue : a (var_move N M L num0 t) = true)
    (hfalse : ∀ k, 1 ≤ k → k ≤ 9 → k ≠ num0 → a (var_move N M L k t) = false) :
    (List.range' ((L + 1) * N * M + 9 * t) 9).filterMap (fun index =>
      if 0 < model.getD index 0 then
        match (index - (L + 1) * N * M) % 9 with
        | 0 => some 'U'
        | 1 => some 'R'
        | 2 => some 'D'
        | 3 => some 'L'
        | 4 => some 'U'
        | 5 => some 'R'
        | 6 => some 'D'
        | 7 => some 'L'
        | _ => none
      else none) = (dirOfAction num0).toList := by
  rw [List.range'_eq_map_range, List.filterMap_map]
  have hfact : ∀ j ∈ List.range 9,
      ((fun index =>
        if 0 < model.getD index 0 then
          match (index - (L + 1) * N * M) % 9 with
          | 0 => some 'U'
          | 1 => some 'R'
          | 2 => some 'D'
          | 3 => some 'L'
          | 4 => some 'U'
          | 5 => some 'R'
          | 6 => some 'D'
          | 7 => some 'L'
          | _ => none
        else none) ∘ fun x => (L + 1) * N * M + 9 * t + x) j =
      (fun j => if a (var_move N M L (j + 1) t) = true then dirOfAction (j + 1)
        else none) j := by
    intro j hj
    rw [List.mem_range] at hj
    show (if 0 < model.getD ((L + 1) * N * M + 9 * t + j) 0 then
        match ((L + 1) * N * M + 9 * t + j - (L + 1) * N * M) % 9 with
        | 0 => some 'U'
        | 1 => some 'R'
        | 2 => some 'D'
        | 3 => some 'L'
        | 4 => some 'U'
        | 5 => some 'R'
        | 6 => some 'D'
        | 7 => some 'L'
        | _ => none
      else none) =
      if a (var_move N M L (j + 1) t) = true then dirOfAction (j + 1) else none
    have hidx : (L + 1) * N * M + 9 * t + j < model.length := by omega
    rw [hmodel _ hidx]
    have hvm : (L + 1) * N * M + 9 * t + j + 1 = var_move N M L (j + 1) t := by
      unfold var_move
      ring
    rw [hvm]
    have hscrut : ((L + 1) * N * M + 9 * t + j - (L + 1) * N * M) % 9 = j := by
      omega
    rw [hscrut]
    cases ha : a (var_move N M L (j + 1) t)
    · have hneg : ¬((0 : Int) <
          -((((L + 1) * N * M + 9 * t + j : Nat) : Int) + 1)) := by omega
      rw [if_neg (show ¬(false = true) by simp), if_neg hneg,
        if_neg (show ¬(false = true) by simp)]
    · have hpos : (0 : Int) <
          ((((L + 1) * N * M + 9 * t + j : Nat) : Int) + 1) := by positivity
      rw [if_pos rfl, if_pos hpos, if_pos rfl]
      interval_cases j <;> decide
  rw [List.filterMap_congr hfact]
  have hr9 : List.range 9 = [0, 1, 2, 3, 4, 5, 6, 7, 8] := by decide
  rw [hr9]
  interval_cases num0
  · have e2 := hfalse 2 (by omega) (by omega) (by omega)
    have e3 := hfalse 3 (by omega) (by omega) (by omega)
    have e4 := hfalse 4 (by omega) (by omega) (by omega)
    have e5 := hfalse 5 (by omega) (by omega) (by omega)
    have e6 := hfalse 6 (by omega) (by omega) (by omega)
    have e7 := hfalse 7 (by omega) (by omega) (by omega)
    have e8 := hfalse 8 (by omega) (by omega) (by omega)
    have e9 := hfalse 9 (by omega) (by omega) (by omega)
    simp [List.filterMap_cons, htrue, e2, e3, e4, e5, e6, e7, e8, e9,
      dirOfAction]
  · have e1 := hfalse 1 (by omega) (by omega) (by omega)
    have e3 := hfalse 3 (by omega) (by omega) (by omega)
    have e4 := hfalse 4 (by omega) (by omega) (by omega)
    have e5 := hfalse 5 (by omega) (by omega) (by omega)
    have e6 := hfalse 6 (by omega) (by omega) (by omega)
    have e7 := hfalse 7 (by omega) (by omega) (by omega)
    have e8 := hfalse 8 (by omega) (by omega) (by omega)
    have e9 := hfalse 9 (by omega) (by omega) (by omega)
    simp [List.filterMap_cons, htrue, e1, e3, e4, e5, e6, e7, e8, e9,
      dirOfAction]
  · have e1 := hfalse 1 (by omega) (by omega) (by omega)
    have e2 := hfalse 2 (by omega) (by omega) (by omega)
    have e4 := hfalse 4 (by omega) (by omega) (by omega)
    have e5 := hfalse 5 (by omega) (by omega) (by omega)
    have e6 := hfalse 6 (by omega) (by omega) (by omega)
    have e7 := hfalse 7 (by omega) (by omega) (by omega)
    have e8 := hfalse 8 (by omega) (by omega) (by omega)
    have e9 := hfalse 9 (by omega) (by omega) (by omega)
    simp [List.filterMap_cons, htrue, e1, e2, e4, e5, e6, e7, e8, e9,
      dirOfAction]
  · have e1 := hfalse 1 (by omega) (by omega) (by omega)
    have e2 := hfalse 2 (by omega) (by omega) (by omega)
    have e3 := hfalse 3 (by omega) (by omega) (by omega)
    have e5 := hfalse 5 (by omega) (by omega) (by omega)
    have e6 := hfalse 6 (by omega) (by omega) (by omega)
    have e7 := hfalse 7 (by omega) (by omega) (by omega)
    have e8 := hfalse 8 (by omega) (by omega) (by omega)
    have e9 := hfalse 9 (by omega) (by omega) (by omega)
    simp [List.filterMap_cons, htrue, e1, e2, e3, e5, e6, e7, e8, e9,
      dirOfAction]
  · have e1 := hfalse 1 (by omega) (by omega) (by omega)
    have e2 := hfalse 2 (by omega) (by omega) (by omega)
    have e3 := hfalse 3 (by omega) (by omega) (by omega)
    have e4 := hfalse 4 (by omega) (by omega) (by omega)
    have e6 := hfalse 6 (by omega) (by omega) (by omega)
    have e7 := hfalse 7 (by omega) (by omega) (by omega)
    have e8 := hfalse 8 (by omega) (by omega) (by omega)
    have e9 := hfalse 9 (by omega) (by omega) (by omega)
    simp [List.filterMap_cons, htrue, e1, e2, e3, e4, e6, e7, e8, e9,
      dirOfAction]
  · have e1 := hfalse 1 (by omega) (by omega) (by omega)
    have e2 := hfalse 2 (by omega) (by omega) (by omega)
    have e3 := hfalse 3 (by omega) (by omega) (by omega)
    have e4 := hfalse 4 (by omega) (by omega) (by omega)
    have e5 := hfalse 5 (by omega) (by omega) (by omega)
    have e7 := hfalse 7 (by omega) (by omega) (by omega)
    have e8 := hfalse 8 (by omega) (by omega) (by omega)
    have e9 := hfalse 9 (by omega) (by omega) (by omega)
    simp [List.filterMap_cons, htrue, e1, e2, e3, e4, e5, e7, e8, e9,
      dirOfAction]
  · have e1 := hfalse 1 (by omega) (by omega) (by omega)
    have e2 := hfalse 2 (by omega) (by omega) (by omega)
    have e3 := hfalse 3 (by omega) (by omega) (by omega)
    have e4 := hfalse 4 (by omega) (by omega) (by omega)
    have e5 := hfalse 5 (by omega) (by omega) (by omega)
    have e6 := hfalse 6 (by omega) (by omega) (by omega)
    have e8 := hfalse 8 (by omega) (by omega) (by omega)
    have e9 := hfalse 9 (by omega) (by omega) (by omega)
    simp [List.filterMap_cons, htrue, e1, e2, e3, e4, e5, e6, e8, e9,
      dirOfAction]
  · have e1 := hfalse 1 (by omega) (by omega) (by omega)
    have e2 := hfalse 2 (by omega) (by omega) (by omega)
    have e3 := hfalse 3 (by omega) (by omega) (by omega)
    have e4 := hfalse 4 (by omega) (by omega) (by omega)
    have e5 := hfalse 5 (by omega) (by omega) (by omega)
    have e6 := hfalse 6 (by omega) (by omega) (by omega)
    have e7 := hfalse 7 (by omega) (by omega) (by omega)
    have e9 := hfalse 9 (by omega) (by omega) (by omega)
    simp [List.filterMap_cons, htrue, e1, e2, e3, e4, e5, e6, e7, e9,
      dirOfAction]
  · have e1 := hfalse 1 (by omega) (by omega) (by omega)
    have e2 := hfalse 2 (by omega) (by omega) (by omega)
    have e3 := hfalse 3 (by omega) (by omega) (by omega)
    have e4 := hfalse 4 (by omega) (by omega) (by omega)
    have e5 := hfalse 5 (by omega) (by omega) (by omega)
    have e6 := hfalse 6 (by omega) (by omega) (by omega)
    have e7 := hfalse 7 (by omega) (by omega) (by omega)
    have e8 := hfalse 8 (by omega) (by omega) (by omega)
    simp [List.filterMap_cons, e1, e2, e3, e4, e5, e6, e7, e8, dirOfAction]

end Sokoban

theorem flatMap_congr_left {α β : Type} (l : List α) (f g : α → List β)
    (h : ∀ x ∈ l, f x = g x) : l.flatMap f = l.flatMap g := by
  induction l with
  | nil => rfl
  | cons x xs ih =>
    rw [List.flatMap_cons, List.flatMap_cons, h x (by simp),
      ih fun y hy => h y (by simp [hy])]

namespace Sokoban

/-- C6: for every model satisfying the exactly-one-action-per-step clauses
and the forced stay at `t = 0`, `decode` returns exactly the direction
symbols of the steps' true action variables in increasing time order over
steps `1..T`: one symbol per directional action code (move codes 1-4 and
push codes 5-8 mapping to U/R/D/L), no symbol for the stay code, and nothing
for the forced stay at `t = 0`. -/
theorem decode_returns_directions_in_time_order (e : SokobanEncoder)
    (model : List Int) (a : Nat → Bool)
    (hlen : (e.T + 1) * e.N * e.M + 9 * e.T ≤ model.length)
    (hmodel : ∀ i, i < model.length →
      model.getD i 0 = if a (i + 1) then ((i : Int) + 1) else -((i : Int) + 1))
    (hact : satCNF a (actionClauses e.N e.M e.T) = true)
    (hstay : a (var_move e.N e.M e.T 9 0) = true) :
    decode model e = specMoves e.N e.M e.T a := by
  obtain ⟨grid, T, N, M, gs, bs, ws, ps, nb⟩ := e
  dsimp only at hlen hact hstay ⊢
  unfold decode specMoves
  dsimp only
  rcases Nat.eq_zero_or_pos T with hT0 | hT1
  · subst hT0
    simp
  obtain ⟨T2, rfl⟩ : ∃ T2, T = T2 + 1 := ⟨T - 1, by omega⟩
  rw [range'_mul_split ((T2 + 1 + 1) * N * M) 9 (T2 + 1)]
  rw [filterMap_flatMap_eq]
  rw [List.range_eq_range']
  rw [show List.range' 0 (T2 + 1) = 0 :: List.range' 1 T2 from rfl]
  rw [List.flatMap_cons]
  obtain ⟨num0, h01, h09, htr0, hfalse0⟩ :=
    actionUnique N M (T2 + 1) a hact 0 (by omega)
  have hnum0 : num0 = 9 := by
    by_contra hne
    have h9f := hfalse0 9 (by omega) (by omega) fun h => hne h.symm
    rw [hstay] at h9f
    exact Bool.noConfusion h9f
  subst hnum0
  rw [decode_block_eq N M (T2 + 1) 0 model a hlen hmodel (by omega) 9 h01 h09
    htr0 hfalse0]
  rw [show (dirOfAction 9).toList = [] from rfl, List.nil_append]
  rw [show T2 + 1 - 1 = T2 from rfl]
  rw [filterMap_eq_flatMap_toList]
  apply flatMap_congr_left
  intro t htmem
  rw [List.mem_range'_1] at htmem
  obtain ⟨numt, hn1, hn9, hntr, hnf⟩ :=
    actionUnique N M (T2 + 1) a hact t (by omega)
  rw [decode_block_eq N M (T2 + 1) t model a hlen hmodel (by omega) numt hn1
    hn9 hntr hnf]
  rw [find?_action_unique (fun num => a (var_move N M (T2 + 1) num t)) numt
    hn1 hn9 hntr fun k hk1 hk9 hkne => hnf k hk1 hk9 hkne]
  rfl

/-- Witness for C6 on the encoder of the grid `[['P']]` with horizon 0 and
the model that makes only the forced stay at `t = 0` true. -/
theorem decode_returns_directions_in_time_order_witness :
    (((Sokoban.mkEncoder [['P']] 0).T + 1) * (Sokoban.mkEncoder [['P']] 0).N *
        (Sokoban.mkEncoder [['P']] 0).M + 9 * (Sokoban.mkEncoder [['P']] 0).T ≤
      ([-1, -2, -3, -4, -5, -6, -7, -8, -9, -10, 11] : List Int).length) ∧
    Sokoban.decode [-1, -2, -3, -4, -5, -6, -7, -8, -9, -10, 11]
        (Sokoban.mkEncoder [['P']] 0) =
      Sokoban.specMoves (Sokoban.mkEncoder [['P']] 0).N
        (Sokoban.mkEncoder [['P']] 0).M (Sokoban.mkEncoder [['P']] 0).T
        (fun v => v == 11) :=
  ⟨by decide,
    decode_returns_directions_in_time_order (Sokoban.mkEncoder [['P']] 0)
      [-1, -2, -3, -4, -5, -6, -7, -8, -9, -10, 11] (fun v => v == 11)
      (by decide) (by decide) (by decide) (by decide)⟩

end Sokoban

theorem satClause_unit_pos (a : Nat → Bool) (v : Nat) (h : 0 < v) :
    satClause a [(v : Int)] = a v := by
  simp [satClause, satLit_pos a v h]

theorem satClause_unit_neg (a : Nat → Bool) (v : Nat) (h : 0 < v) :
    satClause a [-(v : Int)] = !a v := by
  simp [satClause, satLit_neg a v h]

namespace Sokoban

theorem padAssign_goal (N M S L B x y : Nat) (a : Nat → Bool)
    (hx : x < N) (hy : y < M) :
    padAssign N M S L B a (var_goal M x y) = a (var_goal M x y) := by
  have hcell : x * M + y < N * M := cell_lt N M x y hx hy
  unfold padAssign var_goal
  rw [if_pos (by omega)]

theorem padAssign_player (N M S L B x y t : Nat) (a : Nat → Bool)
    (hx : x < N) (hy : y < M) (htL : t < L) :
    padAssign N M S L B a (var_player N M x y t) =
      a (var_player N M x y (min t (S - 1))) := by
  have hcell : x * M + y < N * M := cell_lt N M x y hx hy
  have he : var_player N M x y t = t * (N * M) + (x * M + y) + (N * M + 1) :=
    var_player_eq N M x y t
  have hub : (t + 1) * (N * M) ≤ L * (N * M) :=
    Nat.mul_le_mul_right _ (by omega)
  have hexp : (t + 1) * (N * M) = t * (N * M) + N * M := by ring
  have hlink : (L + 1) * (N * M) = L * (N * M) + N * M := by ring
  have hoff : var_player N M x y t - N * M - 1 = t * (N * M) + (x * M + y) := by
    omega
  obtain ⟨hd, hm⟩ := mixedRadix_div_mod t (x * M + y) (N * M) hcell
  obtain ⟨hd2, hm2⟩ := mixedRadix_div_mod x y M hy
  unfold padAssign
  rw [if_neg (by omega), if_pos (by omega), hoff, hd, hm, hd2, hm2]

theorem padAssign_move (N M S L B num t : Nat) (a : Nat → Bool)
    (h1 : 1 ≤ num) (h9 : num ≤ 9) (htL : t < L) :
    padAssign N M S L B a (var_move N M L num t) =
      if t < S then a (var_move N M S num t) else decide (num = 9) := by
  have he : var_move N M L num t = (L + 1) * (N * M) + (9 * t + num) :=
    var_move_eq N M L num t
  have hlow : N * M ≤ (L + 1) * (N * M) := Nat.le_mul_of_pos_left _ (by omega)
  have hoff : var_move N M L num t - (L + 1) * (N * M) - 1 = 9 * t + (num - 1) := by
    omega
  have hd : (9 * t + (num - 1)) / 9 = t := by omega
  have hm : (9 * t + (num - 1)) % 9 = num - 1 := by omega
  unfold padAssign
  rw [if_neg (by omega), if_neg (by omega), if_pos (by omega), hoff, hd, hm]
  have hnum : num - 1 + 1 = num := by omega
  rw [hnum]

theorem padAssign_box (N M S L B b x y t : Nat) (a : Nat → Bool)
    (hb1 : 1 ≤ b) (hbB : b ≤ B) (hx : x < N) (hy : y < M) (htL : t < L) :
    padAssign N M S L B a (var_box N M L B b x y t) =
      a (var_box N M S B b x y (min t (S - 1))) := by
  have hcell : x * M + y < N * M := cell_lt N M x y hx hy
  have he : var_box N M L B b x y t =
      (L + 1) * (N * M) + 9 * L +
        (t * (B * (N * M)) + ((b - 1) * (N * M) + (x * M + y))) + 1 :=
    var_box_eq N M L B b x y t
  have hinner : (b - 1) * (N * M) + (x * M + y) < B * (N * M) := by
    have hub : ((b - 1) + 1) * (N * M) ≤ B * (N * M) :=
      Nat.mul_le_mul_right _ (by omega)
    have hexp : ((b - 1) + 1) * (N * M) = (b - 1) * (N * M) + N * M := by ring
    omega
  have hub : (t + 1) * (B * (N * M)) ≤ L * (B * (N * M)) :=
    Nat.mul_le_mul_right _ (by omega)
  have hexp : (t + 1) * (B * (N * M)) = t * (B * (N * M)) + B * (N * M) := by
    ring
  have hlow : N * M ≤ (L + 1) * (N * M) := Nat.le_mul_of_pos_left _ (by omega)
  have hoff : var_box N M L B b x y t - ((L + 1) * (N * M) + 9 * L) - 1 =
      t * (B * (N * M)) + ((b - 1) * (N * M) + (x * M + y)) := by
    omega
  obtain ⟨hd, hm⟩ := mixedRadix_div_mod t ((b - 1) * (N * M) + (x * M + y))
    (B * (N * M)) hinner
  unfold padAssign
  rw [if_neg (by omega), if_neg (by omega), if_neg (by omega),
    if_pos (by omega), hoff, hd, hm]
  have he2 : var_box N M S B b x y (min t (S - 1)) =
      (S + 1) * (N * M) + 9 * S +
        (min t (S - 1)) * (B * (N * M)) +
        ((b - 1) * (N * M) + (x * M + y)) + 1 := by
    rw [var_box_eq]
    ring
  rw [he2]

theorem var_goal_pos (M x y : Nat) : 0 < var_goal M x y := by
  unfold var_goal
  omega

/-- Transport of the initial-state clauses from horizon `S` to the padded
assignment at horizon `L`. -/
theorem initTransport (N M S L B : Nat) (p : Nat × Nat)
    (bs ws gs : List (Nat × Nat)) (a : Nat → Bool)
    (hS : 1 ≤ S) (hSL : S ≤ L)
    (hp1 : p.1 < N) (hp2 : p.2 < M)
    (hbs : ∀ b, b < B → (bs.getD b (0, 0)).1 < N ∧ (bs.getD b (0, 0)).2 < M)
    (hws : ∀ q ∈ ws, q.1 < N ∧ q.2 < M)
    (hsat : satCNF a (initClauses N M S B p bs ws gs) = true) :
    satCNF (padAssign N M S L B a) (initClauses N M L B p bs ws gs) = true := by
  rw [initClauses, satCNF_append_iff, satCNF_append_iff, satCNF_append_iff,
    satCNF_append_iff] at hsat
  obtain ⟨⟨⟨⟨hIp, hIb⟩, hIg⟩, hIw⟩, hIs⟩ := hsat
  rw [initClauses, satCNF_append_iff, satCNF_append_iff, satCNF_append_iff,
    satCNF_append_iff]
  refine ⟨⟨⟨⟨?_, ?_⟩, ?_⟩, ?_⟩, ?_⟩
  · rw [satCNF_singleton_iff,
      satClause_unit_pos _ _ (var_player_pos N M p.1 p.2 0),
      padAssign_player N M S L B p.1 p.2 0 a hp1 hp2 (by omega),
      show min 0 (S - 1) = 0 by omega]
    rw [satCNF_singleton_iff,
      satClause_unit_pos _ _ (var_player_pos N M p.1 p.2 0)] at hIp
    exact hIp
  · rw [satCNF_map_iff]
    intro b hb
    rw [List.mem_range] at hb
    rw [satCNF_map_iff] at hIb
    have h2 := hIb b (List.mem_range.mpr hb)
    rw [satClause_unit_pos _ _
      (var_box_pos N M L B (b + 1) (bs.getD b (0, 0)).1 (bs.getD b (0, 0)).2 0),
      padAssign_box N M S L B (b + 1) (bs.getD b (0, 0)).1
        (bs.getD b (0, 0)).2 0 a (by omega) (by omega) (hbs b hb).1
        (hbs b hb).2 (by omega),
      show min 0 (S - 1) = 0 by omega]
    rw [satClause_unit_pos _ _
      (var_box_pos N M S B (b + 1) (bs.getD b (0, 0)).1
        (bs.getD b (0, 0)).2 0)] at h2
    exact h2
  · rw [satCNF_flatMap_iff]
    intro x hx
    rw [List.mem_range] at hx
    rw [satCNF_flatMap_iff]
    intro y hy
    rw [List.mem_range] at hy
    rw [satCNF_flatMap_iff] at hIg
    have h2 := hIg x (List.mem_range.mpr hx)
    rw [satCNF_flatMap_iff] at h2
    have h3 := h2 y (List.mem_range.mpr hy)
    by_cases hmem : (x, y) ∈ gs
    · rw [if_pos hmem] at h3 ⊢
      rw [satCNF_singleton_iff, satClause_unit_pos _ _ (var_goal_pos M x y),
        padAssign_goal N M S L B x y a hx hy]
      rw [satCNF_singleton_iff,
        satClause_unit_pos _ _ (var_goal_pos M x y)] at h3
      exact h3
    · rw [if_neg hmem] at h3 ⊢
      rw [satCNF_singleton_iff, satClause_unit_neg _ _ (var_goal_pos M x y),
        padAssign_goal N M S L B x y a hx hy]
      rw [satCNF_singleton_iff,
        satClause_unit_neg _ _ (var_goal_pos M x y)] at h3
      exact h3
  · rw [satCNF_flatMap_iff] at hIw ⊢
    intro q hq
    have h2 := hIw q hq
    rw [satCNF_flatMap_iff] at h2 ⊢
    intro t ht
    rw [List.mem_range] at ht
    have h3 := h2 (min t (S - 1)) (List.mem_range.mpr (by omega))
    rw [satCNF_cons_iff] at h3 ⊢
    obtain ⟨h3p, h3b⟩ := h3
    constructor
    · rw [satClause_unit_neg _ _ (var_player_pos N M q.1 q.2 t),
        padAssign_player N M S L B q.1 q.2 t a (hws q hq).1 (hws q hq).2 ht]
      rw [satClause_unit_neg _ _
        (var_player_pos N M q.1 q.2 (min t (S - 1)))] at h3p
      exact h3p
    · rw [satCNF_map_iff] at h3b ⊢
      intro b hb
      have h4 := h3b b hb
      rw [List.mem_range] at hb
      rw [satClause_unit_neg _ _ (var_box_pos N M L B (b + 1) q.1 q.2 t),
        padAssign_box N M S L B (b + 1) q.1 q.2 t a (by omega) (by omega)
          (hws q hq).1 (hws q hq).2 ht]
      rw [satClause_unit_neg _ _
        (var_box_pos N M S B (b + 1) q.1 q.2 (min t (S - 1)))] at h4
      exact h4
  · rw [satCNF_singleton_iff,
      satClause_unit_pos _ _ (var_move_pos N M L 9 0 (by omega)),
      padAssign_move N M S L B 9 0 a (by omega) (by omega) (by omega),
      if_pos (show (0 : Nat) < S by omega)]
    rw [satCNF_singleton_iff,
      satClause_unit_pos _ _ (var_move_pos N M S 9 0 (by omega))] at hIs
    exact hIs

theorem oob_false_bounds (N M : Nat) (q : Int × Int) (h : oob N M q = false) :
    q.1.toNat < N ∧ q.2.toNat < M ∧ 0 ≤ q.1 ∧ 0 ≤ q.2 := by
  unfold oob at h
  simp only [Bool.or_eq_false_iff, decide_eq_false_iff_not, not_lt, not_le]
    at h
  omega

/-- Transport of the plain-move clauses from horizon `S` to the padded
assignment at horizon `L`. -/
theorem moveTransport (N M S L B : Nat) (a : Nat → Bool)
    (hS : 1 ≤ S) (hSL : S ≤ L)
    (hsat : satCNF a (moveClauses N M S B) = true) :
    satCNF (padAssign N M S L B a) (moveClauses N M L B) = true := by
  rw [moveClauses, satCNF_flatMap_iff]
  intro x hx
  rw [List.mem_range] at hx
  rw [satCNF_flatMap_iff]
  intro y hy
  rw [List.mem_range] at hy
  rw [satCNF_flatMap_iff]
  intro move hmove
  rw [List.mem_range] at hmove
  rw [satCNF_flatMap_iff]
  intro t htmem
  rw [List.mem_range'_1] at htmem
  have htL : t < L := by omega
  rw [satCNF_append_iff]
  rcases Nat.lt_or_ge t S with htS | htS
  · rw [moveClauses, satCNF_flatMap_iff] at hsat
    have h1 := hsat x (List.mem_range.mpr hx)
    rw [satCNF_flatMap_iff] at h1
    have h2 := h1 y (List.mem_range.mpr hy)
    rw [satCNF_flatMap_iff] at h2
    have h3 := h2 move (List.mem_range.mpr hmove)
    rw [satCNF_flatMap_iff] at h3
    have h4 := h3 t (by rw [List.mem_range'_1]; omega)
    rw [satCNF_append_iff] at h4
    obtain ⟨hframes, hplayer⟩ := h4
    constructor
    · rw [satCNF_map_iff] at hframes ⊢
      intro b hb
      have h5 := hframes b hb
      rw [List.mem_range] at hb
      rw [satClause_iff] at h5 ⊢
      obtain ⟨l, hl, hsatl⟩ := h5
      have hl2 : l = -(var_move N M S (move + 1) t : Int) ∨
          l = -(var_box N M S B (b + 1) x y (t - 1) : Int) ∨
          l = (var_box N M S B (b + 1) x y t : Int) := by simpa using hl
      rcases hl2 with rfl | rfl | rfl
      · refine ⟨-(var_move N M L (move + 1) t : Int), by simp, ?_⟩
        rw [satLit_neg _ _ (var_move_pos N M L (move + 1) t (by omega)),
          padAssign_move N M S L B (move + 1) t a (by omega) (by omega) htL,
          if_pos htS]
        rwa [satLit_neg _ _ (var_move_pos N M S (move + 1) t (by omega))]
          at hsatl
      · refine ⟨-(var_box N M L B (b + 1) x y (t - 1) : Int), by simp, ?_⟩
        rw [satLit_neg _ _ (var_box_pos N M L B (b + 1) x y (t - 1)),
          padAssign_box N M S L B (b + 1) x y (t - 1) a (by omega) (by omega)
            hx hy (by omega),
          show min (t - 1) (S - 1) = t - 1 by omega]
        rwa [satLit_neg _ _ (var_box_pos N M S B (b + 1) x y (t - 1))] at hsatl
      · refine ⟨(var_box N M L B (b + 1) x y t : Int), by simp, ?_⟩
        rw [satLit_pos _ _ (var_box_pos N M L B (b + 1) x y t),
          padAssign_box N M S L B (b + 1) x y t a (by omega) (by omega) hx hy
            htL,
          show min t (S - 1) = t by omega]
        rwa [satLit_pos _ _ (var_box_pos N M S B (b + 1) x y t)] at hsatl
    · replace hplayer : satCNF a
          (if oob N M (newPos move ((x : Int), (y : Int))) then
            [[-(var_move N M S (move + 1) t : Int),
              -(var_player N M x y (t - 1) : Int)]]
          else
            [[-(var_move N M S (move + 1) t : Int),
              -(var_player N M x y (t - 1) : Int),
              (var_player N M (newPos move ((x : Int), (y : Int))).1.toNat
                (newPos move ((x : Int), (y : Int))).2.toNat t : Int)]]) =
          true := hplayer
      show satCNF (padAssign N M S L B a)
          (if oob N M (newPos move ((x : Int), (y : Int))) then
            [[-(var_move N M L (move + 1) t : Int),
              -(var_player N M x y (t - 1) : Int)]]
          else
            [[-(var_move N M L (move + 1) t : Int),
              -(var_player N M x y (t - 1) : Int),
              (var_player N M (newPos move ((x : Int), (y : Int))).1.toNat
                (newPos move ((x : Int), (y : Int))).2.toNat t : Int)]]) =
          true
      by_cases hoob : oob N M (newPos move ((x : Int), (y : Int))) = true
      · rw [if_pos hoob] at hplayer ⊢
        rw [satCNF_singleton_iff, satClause_iff] at hplayer ⊢
        obtain ⟨l, hl, hsatl⟩ := hplayer
        have hl2 : l = -(var_move N M S (move + 1) t : Int) ∨
            l = -(var_player N M x y (t - 1) : Int) := by simpa using hl
        rcases hl2 with rfl | rfl
        · refine ⟨-(var_move N M L (move + 1) t : Int), by simp, ?_⟩
          rw [satLit_neg _ _ (var_move_pos N M L (move + 1) t (by omega)),
            padAssign_move N M S L B (move + 1) t a (by omega) (by omega) htL,
            if_pos htS]
          rwa [satLit_neg _ _ (var_move_pos N M S (move + 1) t (by omega))]
            at hsatl
        · refine ⟨-(var_player N M x y (t - 1) : Int), by simp, ?_⟩
          rw [satLit_neg _ _ (var_player_pos N M x y (t - 1)),
            padAssign_player N M S L B x y (t - 1) a hx hy (by omega),
            show min (t - 1) (S - 1) = t - 1 by omega]
          rwa [satLit_neg _ _ (var_player_pos N M x y (t - 1))] at hsatl
      · rw [if_neg hoob] at hplayer ⊢
        have hoobf : oob N M (newPos move ((x : Int), (y : Int))) = false := by
          revert hoob
          cases oob N M (newPos move ((x : Int), (y : Int))) <;> simp
        obtain ⟨hnx, hny, hge1, hge2⟩ := oob_false_bounds N M _ hoobf
        rw [satCNF_singleton_iff, satClause_iff] at hplayer ⊢
        obtain ⟨l, hl, hsatl⟩ := hplayer
        have hl2 : l = -(var_move N M S (move + 1) t : Int) ∨
            l = -(var_player N M x y (t - 1) : Int) ∨
            l = (var_player N M (newPos move ((x : Int), (y : Int))).1.toNat
              (newPos move ((x : Int), (y : Int))).2.toNat t : Int) := by
          simpa using hl
        rcases hl2 with rfl | rfl | rfl
        · refine ⟨-(var_move N M L (move + 1) t : Int), by simp, ?_⟩
          rw [satLit_neg _ _ (var_move_pos N M L (move + 1) t (by omega)),
            padAssign_move N M S L B (move + 1) t a (by omega) (by omega) htL,
            if_pos htS]
          rwa [satLit_neg _ _ (var_move_pos N M S (move + 1) t (by omega))]
            at hsatl
        · refine ⟨-(var_player N M x y (t - 1) : Int), by simp, ?_⟩
          rw [satLit_neg _ _ (var_player_pos N M x y (t - 1)),
            padAssign_player N M S L B x y (t - 1) a hx hy (by omega),
            show min (t - 1) (S - 1) = t - 1 by omega]
          rwa [satLit_neg _ _ (var_player_pos N M x y (t - 1))] at hsatl
        · refine ⟨(var_player N M
            (newPos move ((x : Int), (y : Int))).1.toNat
            (newPos move ((x : Int), (y : Int))).2.toNat t : Int),
            by simp, ?_⟩
          rw [satLit_pos _ _ (var_player_pos N M _ _ t),
            padAssign_player N M S L B _ _ t a hnx hny htL,
            show min t (S - 1) = t by omega]
          rwa [satLit_pos _ _ (var_player_pos N M _ _ t)] at hsatl
  · constructor
    · rw [satCNF_map_iff]
      intro b hb
      rw [satClause_iff]
      refine ⟨-(var_move N M L (move + 1) t : Int), by simp, ?_⟩
      rw [satLit_neg _ _ (var_move_pos N M L (move + 1) t (by omega)),
        padAssign_move N M S L B (move + 1) t a (by omega) (by omega) htL,
        if_neg (by omega), decide_eq_false (by omega : ¬(move + 1 = 9))]
      rfl
    · show satCNF (padAssign N M S L B a)
          (if oob N M (newPos move ((x : Int), (y : Int))) then
            [[-(var_move N M L (move + 1) t : Int),
              -(var_player N M x y (t - 1) : Int)]]
          else
            [[-(var_move N M L (move + 1) t : Int),
              -(var_player N M x y (t - 1) : Int),
              (var_player N M (newPos move ((x : Int), (y : Int))).1.toNat
                (newPos move ((x : Int), (y : Int))).2.toNat t : Int)]]) =
          true
      by_cases hoob : oob N M (newPos move ((x : Int), (y : Int))) = true
      · rw [if_pos hoob, satCNF_singleton_iff, satClause_iff]
        refine ⟨-(var_move N M L (move + 1) t : Int), by simp, ?_⟩
        rw [satLit_neg _ _ (var_move_pos N M L (move + 1) t (by omega)),
          padAssign_move N M S L B (move + 1) t a (by omega) (by omega) htL,
          if_neg (by omega), decide_eq_false (by omega : ¬(move + 1 = 9))]
        rfl
      · rw [if_neg hoob, satCNF_singleton_iff, satClause_iff]
        refine ⟨-(var_move N M L (move + 1) t : Int), by simp, ?_⟩
        rw [satLit_neg _ _ (var_move_pos N M L (move + 1) t (by omega)),
          padAssign_move N M S L B (move + 1) t a (by omega) (by omega) htL,
          if_neg (by omega), decide_eq_false (by omega : ¬(move + 1 = 9))]
        rfl

theorem pad_neg_move (N M S L B num t : Nat) (a : Nat → Bool) (h1 : 1 ≤ num)
    (h9 : num ≤ 9) (htL : t < L) (htS : t < S)
    (h : satLit a (-(var_move N M S num t : Int)) = true) :
    satLit (padAssign N M S L B a) (-(var_move N M L num t : Int)) = true := by
  rw [satLit_neg _ _ (var_move_pos N M L num t h1),
    padAssign_move N M S L B num t a h1 h9 htL, if_pos htS]
  rwa [satLit_neg _ _ (var_move_pos N M S num t h1)] at h

theorem pad_pos_move (N M S L B num t : Nat) (a : Nat → Bool) (h1 : 1 ≤ num)
    (h9 : num ≤ 9) (htL : t < L) (htS : t < S)
    (h : satLit a ((var_move N M S num t : Nat) : Int) = true) :
    satLit (padAssign N M S L B a) ((var_move N M L num t : Nat) : Int) = true := by
  rw [satLit_pos _ _ (var_move_pos N M L num t h1),
    padAssign_move N M S L B num t a h1 h9 htL, if_pos htS]
  rwa [satLit_pos _ _ (var_move_pos N M S num t h1)] at h

theorem pad_neg_move_frozen (N M S L B num t : Nat) (a : Nat → Bool)
    (h1 : 1 ≤ num) (h9 : num ≤ 9) (hne : num ≠ 9) (htL : t < L) (htS : S ≤ t) :
    satLit (padAssign N M S L B a) (-(var_move N M L num t : Int)) = true := by
  rw [satLit_neg _ _ (var_move_pos N M L num t h1),
    padAssign_move N M S L B num t a h1 h9 htL, if_neg (by omega),
    decide_eq_false hne]
  rfl

theorem pad_neg_player (N M S L B x y u : Nat) (a : Nat → Bool)
    (hx : x < N) (hy : y < M) (huL : u < L) (huS : u < S)
    (h : satLit a (-(var_player N M x y u : Int)) = true) :
    satLit (padAssign N M S L B a) (-(var_player N M x y u : Int)) = true := by
  rw [satLit_neg _ _ (var_player_pos N M x y u),
    padAssign_player N M S L B x y u a hx hy huL,
    show min u (S - 1) = u by omega]
  rwa [satLit_neg _ _ (var_player_pos N M x y u)] at h

theorem pad_pos_player (N M S L B x y u : Nat) (a : Nat → Bool)
    (hx : x < N) (hy : y < M) (huL : u < L) (huS : u < S)
    (h : satLit a ((var_player N M x y u : Nat) : Int) = true) :
    satLit (padAssign N M S L B a) ((var_player N M x y u : Nat) : Int) = true := by
  rw [satLit_pos _ _ (var_player_pos N M x y u),
    padAssign_player N M S L B x y u a hx hy huL,
    show min u (S - 1) = u by omega]
  rwa [satLit_pos _ _ (var_player_pos N M x y u)] at h

theorem pad_neg_box (N M S L B b x y u : Nat) (a : Nat → Bool)
    (hb1 : 1 ≤ b) (hbB : b ≤ B) (hx : x < N) (hy : y < M) (huL : u < L)
    (huS : u < S)
    (h : satLit a (-(var_box N M S B b x y u : Int)) = true) :
    satLit (padAssign N M S L B a) (-(var_box N M L B b x y u : Int)) = true := by
  rw [satLit_neg _ _ (var_box_pos N M L B b x y u),
    padAssign_box N M S L B b x y u a hb1 hbB hx hy huL,
    show min u (S - 1) = u by omega]
  rwa [satLit_neg _ _ (var_box_pos N M S B b x y u)] at h

theorem pad_pos_box (N M S L B b x y u : Nat) (a : Nat → Bool)
    (hb1 : 1 ≤ b) (hbB : b ≤ B) (hx : x < N) (hy : y < M) (huL : u < L)
    (huS : u < S)
    (h : satLit a ((var_box N M S B b x y u : Nat) : Int) = true) :
    satLit (padAssign N M S L B a) ((var_box N M L B b x y u : Nat) : Int) = true := by
  rw [satLit_pos _ _ (var_box_pos N M L B b x y u),
    padAssign_box N M S L B b x y u a hb1 hbB hx hy huL,
    show min u (S - 1) = u by omega]
  rwa [satLit_pos _ _ (var_box_pos N M S B b x y u)] at h

/-- Transport of the push clauses from horizon `S` to the padded assignment
at horizon `L`. -/
theorem pushTransport (N M S L B : Nat) (a : Nat → Bool)
    (hS : 1 ≤ S) (hSL : S ≤ L)
    (hsat : satCNF a (pushClauses N M S B) = true) :
    satCNF (padAssign N M S L B a) (pushClauses N M L B) = true := by
  rw [pushClauses, satCNF_flatMap_iff]
  intro x hx
  rw [List.mem_range] at hx
  rw [satCNF_flatMap_iff]
  intro y hy
  rw [List.mem_range] at hy
  rw [satCNF_flatMap_iff]
  intro t htmem
  rw [List.mem_range'_1] at htmem
  have htL : t < L := by omega
  rw [satCNF_flatMap_iff]
  intro move hmove
  rw [List.mem_range] at hmove
  show satCNF (padAssign N M S L B a)
      (if oob N M (newPos move ((x : Int), (y : Int))) ||
          oob N M (newPos move (newPos move ((x : Int), (y : Int)))) then
        [[-(var_move N M L (move + 5) t : Int),
          -(var_player N M x y (t - 1) : Int)]]
      else
        ((List.range B).flatMap fun b =>
          [[-(var_move N M L (move + 5) t : Int),
            -(var_player N M x y (t - 1) : Int),
            -(var_box N M L B (b + 1)
                (newPos move ((x : Int), (y : Int))).1.toNat
                (newPos move ((x : Int), (y : Int))).2.toNat (t - 1) : Int),
            (var_player N M (newPos move ((x : Int), (y : Int))).1.toNat
                (newPos move ((x : Int), (y : Int))).2.toNat t : Int)],
           pushMovedBox N M L B move t (b + 1) x y
             (newPos move ((x : Int), (y : Int))).1.toNat
             (newPos move ((x : Int), (y : Int))).2.toNat
             (newPos move (newPos move ((x : Int), (y : Int)))).1.toNat
             (newPos move (newPos move ((x : Int), (y : Int)))).2.toNat] ++
          ((List.range N).flatMap fun px => (List.range M).flatMap fun py =>
            if (px, py) = ((newPos move ((x : Int), (y : Int))).1.toNat,
                (newPos move ((x : Int), (y : Int))).2.toNat) then []
            else [pushFrame N M L B move t (b + 1) x y px py])) ++
        [[-(var_move N M L (move + 5) t : Int),
          -(var_player N M x y (t - 1) : Int)] ++
          ((List.range B).map fun b =>
            (var_box N M L B (b + 1)
                (newPos move ((x : Int), (y : Int))).1.toNat
                (newPos move ((x : Int), (y : Int))).2.toNat (t - 1) : Int))]) =
      true
  rcases Nat.lt_or_ge t S with htS | htS
  · rw [pushClauses, satCNF_flatMap_iff] at hsat
    have h1 := hsat x (List.mem_range.mpr hx)
    rw [satCNF_flatMap_iff] at h1
    have h2 := h1 y (List.mem_range.mpr hy)
    rw [satCNF_flatMap_iff] at h2
    have h3 := h2 t (by rw [List.mem_range'_1]; omega)
    rw [satCNF_flatMap_iff] at h3
    have h4 := h3 move (List.mem_range.mpr hmove)
    replace h4 : satCNF a
        (if oob N M (newPos move ((x : Int), (y : Int))) ||
            oob N M (newPos move (newPos move ((x : Int), (y : Int)))) then
          [[-(var_move N M S (move + 5) t : Int),
            -(var_player N M x y (t - 1) : Int)]]
        else
          ((List.range B).flatMap fun b =>
            [[-(var_move N M S (move + 5) t : Int),
              -(var_player N M x y (t - 1) : Int),
              -(var_box N M S B (b + 1)
                  (newPos move ((x : Int), (y : Int))).1.toNat
                  (newPos move ((x : Int), (y : Int))).2.toNat (t - 1) : Int),
              (var_player N M (newPos move ((x : Int), (y : Int))).1.toNat
                  (newPos move ((x : Int), (y : Int))).2.toNat t : Int)],
             pushMovedBox N M S B move t (b + 1) x y
               (newPos move ((x : Int), (y : Int))).1.toNat
               (newPos move ((x : Int), (y : Int))).2.toNat
               (newPos move (newPos move ((x : Int), (y : Int)))).1.toNat
               (newPos move (newPos move ((x : Int), (y : Int)))).2.toNat] ++
            ((List.range N).flatMap fun px => (List.range M).flatMap fun py =>
              if (px, py) = ((newPos move ((x : Int), (y : Int))).1.toNat,
                  (newPos move ((x : Int), (y : Int))).2.toNat) then []
              else [pushFrame N M S B move t (b + 1) x y px py])) ++
          [[-(var_move N M S (move + 5) t : Int),
            -(var_player N M x y (t - 1) : Int)] ++
            ((List.range B).map fun b =>
              (var_box N M S B (b + 1)
                  (newPos move ((x : Int), (y : Int))).1.toNat
                  (newPos move ((x : Int), (y : Int))).2.toNat (t - 1) : Int))]) =
        true := h4
    by_cases hoob : (oob N M (newPos move ((x : Int), (y : Int))) ||
        oob N M (newPos move (newPos move ((x : Int), (y : Int))))) = true
    · rw [if_pos hoob] at h4 ⊢
      rw [satCNF_singleton_iff, satClause_iff] at h4 ⊢
      obtain ⟨l, hl, hsatl⟩ := h4
      have hl2 : l = -(var_move N M S (move + 5) t : Int) ∨
          l = -(var_player N M x y (t - 1) : Int) := by simpa using hl
      rcases hl2 with rfl | rfl
      · exact ⟨-(var_move N M L (move + 5) t : Int), by simp,
          pad_neg_move N M S L B (move + 5) t a (by omega) (by omega) htL htS
            hsatl⟩
      · exact ⟨-(var_player N M x y (t - 1) : Int), by simp,
          pad_neg_player N M S L B x y (t - 1) a hx hy (by omega) (by omega)
            hsatl⟩
    · rw [if_neg hoob] at h4 ⊢
      have hoobf : (oob N M (newPos move ((x : Int), (y : Int))) ||
          oob N M (newPos move (newPos move ((x : Int), (y : Int))))) =
          false := by
        revert hoob
        cases oob N M (newPos move ((x : Int), (y : Int))) ||
          oob N M (newPos move (newPos move ((x : Int), (y : Int)))) <;> simp
      rw [Bool.or_eq_false_iff] at hoobf
      obtain ⟨hnpf, hdpf⟩ := hoobf
      obtain ⟨hnpx, hnpy, hnp1, hnp2⟩ := oob_false_bounds N M _ hnpf
      obtain ⟨hdpx, hdpy, hdp1, hdp2⟩ := oob_false_bounds N M _ hdpf
      rw [satCNF_append_iff] at h4 ⊢
      obtain ⟨hmain, hagg⟩ := h4
      constructor
      · rw [satCNF_flatMap_iff] at hmain ⊢
        intro b hb
        have h5 := hmain b hb
        rw [List.mem_range] at hb
        rw [satCNF_append_iff] at h5 ⊢
        obtain ⟨hpair2, hframes⟩ := h5
        constructor
        · rw [satCNF_cons_iff, satCNF_singleton_iff] at hpair2 ⊢
          obtain ⟨hc1, hc2⟩ := hpair2
          constructor
          · rw [satClause_iff] at hc1 ⊢
            obtain ⟨l, hl, hsatl⟩ := hc1
            have hl2 : l = -(var_move N M S (move + 5) t : Int) ∨
                l = -(var_player N M x y (t - 1) : Int) ∨
                l = -(var_box N M S B (b + 1)
                    (newPos move ((x : Int), (y : Int))).1.toNat
                    (newPos move ((x : Int), (y : Int))).2.toNat
                    (t - 1) : Int) ∨
                l = (var_player N M
                    (newPos move ((x : Int), (y : Int))).1.toNat
                    (newPos move ((x : Int), (y : Int))).2.toNat t : Int) := by
              simpa using hl
            rcases hl2 with rfl | rfl | rfl | rfl
            · exact ⟨-(var_move N M L (move + 5) t : Int), by simp,
                pad_neg_move N M S L B (move + 5) t a (by omega) (by omega)
                  htL htS hsatl⟩
            · exact ⟨-(var_player N M x y (t - 1) : Int), by simp,
                pad_neg_player N M S L B x y (t - 1) a hx hy (by omega)
                  (by omega) hsatl⟩
            · exact ⟨-(var_box N M L B (b + 1)
                  (newPos move ((x : Int), (y : Int))).1.toNat
                  (newPos move ((x : Int), (y : Int))).2.toNat (t - 1) : Int),
                by simp,
                pad_neg_box N M S L B (b + 1) _ _ (t - 1) a (by omega)
                  (by omega) hnpx hnpy (by omega) (by omega) hsatl⟩
            · exact ⟨(var_player N M
                  (newPos move ((x : Int), (y : Int))).1.toNat
                  (newPos move ((x : Int), (y : Int))).2.toNat t : Int),
                by simp,
                pad_pos_player N M S L B _ _ t a hnpx hnpy htL htS hsatl⟩
          · unfold pushMovedBox at hc2 ⊢
            rw [satClause_iff] at hc2 ⊢
            obtain ⟨l, hl, hsatl⟩ := hc2
            have hl2 : l = -(var_move N M S (move + 5) t : Int) ∨
                l = -(var_player N M x y (t - 1) : Int) ∨
                l = -(var_box N M S B (b + 1)
                    (newPos move ((x : Int), (y : Int))).1.toNat
                    (newPos move ((x : Int), (y : Int))).2.toNat
                    (t - 1) : Int) ∨
                l = (var_box N M S B (b + 1)
                    (newPos move (newPos move ((x : Int), (y : Int)))).1.toNat
                    (newPos move (newPos move ((x : Int), (y : Int)))).2.toNat
                    t : Int) := by
              simpa using hl
            rcases hl2 with rfl | rfl | rfl | rfl
            · exact ⟨-(var_move N M L (move + 5) t : Int), by simp,
                pad_neg_move N M S L B (move + 5) t a (by omega) (by omega)
                  htL htS hsatl⟩
            · exact ⟨-(var_player N M x y (t - 1) : Int), by simp,
                pad_neg_player N M S L B x y (t - 1) a hx hy (by omega)
                  (by omega) hsatl⟩
            · exact ⟨-(var_box N M L B (b + 1)
                  (newPos move ((x : Int), (y : Int))).1.toNat
                  (newPos move ((x : Int), (y : Int))).2.toNat (t - 1) : Int),
                by simp,
                pad_neg_box N M S L B (b + 1) _ _ (t - 1) a (by omega)
                  (by omega) hnpx hnpy (by omega) (by omega) hsatl⟩
            · exact ⟨(var_box N M L B (b + 1)
                  (newPos move (newPos move ((x : Int), (y : Int)))).1.toNat
                  (newPos move (newPos move ((x : Int), (y : Int)))).2.toNat
                  t : Int),
                by simp,
                pad_pos_box N M S L B (b + 1) _ _ t a (by omega) (by omega)
                  hdpx hdpy htL htS hsatl⟩
        · rw [satCNF_flatMap_iff] at hframes ⊢
          intro px hpxm
          have h6 := hframes px hpxm
          rw [List.mem_range] at hpxm
          rw [satCNF_flatMap_iff] at h6 ⊢
          intro py hpym
          have h7 := h6 py hpym
          rw [List.mem_range] at hpym
          by_cases heq : (px, py) =
              ((newPos move ((x : Int), (y : Int))).1.toNat,
                (newPos move ((x : Int), (y : Int))).2.toNat)
          · rw [if_pos heq]
            rfl
          · rw [if_neg heq] at h7 ⊢
            rw [satCNF_singleton_iff] at h7 ⊢
            unfold pushFrame at h7 ⊢
            rw [satClause_iff] at h7 ⊢
            obtain ⟨l, hl, hsatl⟩ := h7
            have hl2 : l = -(var_move N M S (move + 5) t : Int) ∨
                l = -(var_player N M x y (t - 1) : Int) ∨
                l = -(var_box N M S B (b + 1) px py (t - 1) : Int) ∨
                l = (var_box N M S B (b + 1) px py t : Int) := by
              simpa using hl
            rcases hl2 with rfl | rfl | rfl | rfl
            · exact ⟨-(var_move N M L (move + 5) t : Int), by simp,
                pad_neg_move N M S L B (move + 5) t a (by omega) (by omega)
                  htL htS hsatl⟩
            · exact ⟨-(var_player N M x y (t - 1) : Int), by simp,
                pad_neg_player N M S L B x y (t - 1) a hx hy (by omega)
                  (by omega) hsatl⟩
            · exact ⟨-(var_box N M L B (b + 1) px py (t - 1) : Int), by simp,
                pad_neg_box N M S L B (b + 1) px py (t - 1) a (by omega)
                  (by omega) hpxm hpym (by omega) (by omega) hsatl⟩
            · exact ⟨(var_box N M L B (b + 1) px py t : Int), by simp,
                pad_pos_box N M S L B (b + 1) px py t a (by omega) (by omega)
                  hpxm hpym htL htS hsatl⟩
      · rw [satCNF_singleton_iff, satClause_iff] at hagg ⊢
        obtain ⟨l, hl, hsatl⟩ := hagg
        rw [List.mem_append] at hl
        rcases hl with hl | hl
        · have hl2 : l = -(var_move N M S (move + 5) t : Int) ∨
              l = -(var_player N M x y (t - 1) : Int) := by simpa using hl
          rcases hl2 with rfl | rfl
          · exact ⟨-(var_move N M L (move + 5) t : Int),
              List.mem_append.mpr (Or.inl (by simp)),
              pad_neg_move N M S L B (move + 5) t a (by omega) (by omega) htL
                htS hsatl⟩
          · exact ⟨-(var_player N M x y (t - 1) : Int),
              List.mem_append.mpr (Or.inl (by simp)),
              pad_neg_player N M S L B x y (t - 1) a hx hy (by omega)
                (by omega) hsatl⟩
        · rw [List.mem_map] at hl
          obtain ⟨b, hb, rfl⟩ := hl
          rw [List.mem_range] at hb
          exact ⟨(var_box N M L B (b + 1)
              (newPos move ((x : Int), (y : Int))).1.toNat
              (newPos move ((x : Int), (y : Int))).2.toNat (t - 1) : Int),
            List.mem_append.mpr (Or.inr (List.mem_map.mpr
              ⟨b, List.mem_range.mpr hb, rfl⟩)),
            pad_pos_box N M S L B (b + 1) _ _ (t - 1) a (by omega) (by omega)
              hnpx hnpy (by omega) (by omega) hsatl⟩
  · have hlit : satLit (padAssign N M S L B a)
        (-(var_move N M L (move + 5) t : Int)) = true :=
      pad_neg_move_frozen N M S L B (move + 5) t a (by omega) (by omega)
        (by omega) htL htS
    by_cases hoob : (oob N M (newPos move ((x : Int), (y : Int))) ||
        oob N M (newPos move (newPos move ((x : Int), (y : Int))))) = true
    · rw [if_pos hoob, satCNF_singleton_iff, satClause_iff]
      exact ⟨-(var_move N M L (move + 5) t : Int), by simp, hlit⟩
    · rw [if_neg hoob, satCNF_append_iff]
      constructor
      · rw [satCNF_flatMap_iff]
        intro b hb
        rw [List.mem_range] at hb
        rw [satCNF_append_iff]
        constructor
        · rw [satCNF_cons_iff, satCNF_singleton_iff]
          constructor
          · rw [satClause_iff]
            exact ⟨-(var_move N M L (move + 5) t : Int), by simp, hlit⟩
          · unfold pushMovedBox
            rw [satClause_iff]
            exact ⟨-(var_move N M L (move + 5) t : Int), by simp, hlit⟩
        · rw [satCNF_flatMap_iff]
          intro px hpxm
          rw [satCNF_flatMap_iff]
          intro py hpym
          by_cases heq : (px, py) =
              ((newPos move ((x : Int), (y : Int))).1.toNat,
                (newPos move ((x : Int), (y : Int))).2.toNat)
          · rw [if_pos heq]
            rfl
          · rw [if_neg heq, satCNF_singleton_iff]
            unfold pushFrame
            rw [satClause_iff]
            exact ⟨-(var_move N M L (move + 5) t : Int), by simp, hlit⟩
      · rw [satCNF_singleton_iff, satClause_iff]
        exact ⟨-(var_move N M L (move + 5) t : Int),
          List.mem_append.mpr (Or.inl (by simp)), hlit⟩

/-- Transport of the non-overlap clauses from horizon `S` to the padded
assignment at horizon `L`. -/
theorem overlapTransport (N M S L B : Nat) (a : Nat → Bool)
    (hS : 1 ≤ S) (hSL : S ≤ L)
    (hsat : satCNF a (overlapClauses N M S B) = true) :
    satCNF (padAssign N M S L B a) (overlapClauses N M L B) = true := by
  rw [overlapClauses, satCNF_flatMap_iff]
  intro x hx
  rw [List.mem_range] at hx
  rw [satCNF_flatMap_iff]
  intro y hy
  rw [List.mem_range] at hy
  rw [satCNF_flatMap_iff]
  intro b hb
  rw [List.mem_range] at hb
  rw [satCNF_flatMap_iff]
  intro t ht
  rw [List.mem_range] at ht
  rw [overlapClauses, satCNF_flatMap_iff] at hsat
  have h1 := hsat x (List.mem_range.mpr hx)
  rw [satCNF_flatMap_iff] at h1
  have h2 := h1 y (List.mem_range.mpr hy)
  rw [satCNF_flatMap_iff] at h2
  have h3 := h2 b (List.mem_range.mpr hb)
  rw [satCNF_flatMap_iff] at h3
  have h4 := h3 (min t (S - 1)) (List.mem_range.mpr (by omega))
  rw [satCNF_cons_iff] at h4 ⊢
  obtain ⟨hc1, hrest⟩ := h4
  constructor
  · rw [satClause_iff] at hc1 ⊢
    obtain ⟨l, hl, hsatl⟩ := hc1
    have hl2 : l = -(var_player N M x y (min t (S - 1)) : Int) ∨
        l = -(var_box N M S B (b + 1) x y (min t (S - 1)) : Int) := by
      simpa using hl
    rcases hl2 with rfl | rfl
    · refine ⟨-(var_player N M x y t : Int), by simp, ?_⟩
      rw [satLit_neg _ _ (var_player_pos N M x y t),
        padAssign_player N M S L B x y t a hx hy ht]
      rwa [satLit_neg _ _ (var_player_pos N M x y (min t (S - 1)))] at hsatl
    · refine ⟨-(var_box N M L B (b + 1) x y t : Int), by simp, ?_⟩
      rw [satLit_neg _ _ (var_box_pos N M L B (b + 1) x y t),
        padAssign_box N M S L B (b + 1) x y t a (by omega) (by omega) hx hy ht]
      rwa [satLit_neg _ _ (var_box_pos N M S B (b + 1) x y (min t (S - 1)))]
        at hsatl
  · rw [satCNF_map_iff] at hrest ⊢
    intro bd hbd
    have h5 := hrest bd hbd
    rw [List.mem_range'_1] at hbd
    rw [satClause_iff] at h5 ⊢
    obtain ⟨l, hl, hsatl⟩ := h5
    have hl2 : l = -(var_box N M S B (b + 1) x y (min t (S - 1)) : Int) ∨
        l = -(var_box N M S B (bd + 1) x y (min t (S - 1)) : Int) := by
      simpa using hl
    rcases hl2 with rfl | rfl
    · refine ⟨-(var_box N M L B (b + 1) x y t : Int), by simp, ?_⟩
      rw [satLit_neg _ _ (var_box_pos N M L B (b + 1) x y t),
        padAssign_box N M S L B (b + 1) x y t a (by omega) (by omega) hx hy ht]
      rwa [satLit_neg _ _ (var_box_pos N M S B (b + 1) x y (min t (S - 1)))]
        at hsatl
    · refine ⟨-(var_box N M L B (bd + 1) x y t : Int), by simp, ?_⟩
      rw [satLit_neg _ _ (var_box_pos N M L B (bd + 1) x y t),
        padAssign_box N M S L B (bd + 1) x y t a (by omega) (by omega) hx hy ht]
      rwa [satLit_neg _ _ (var_box_pos N M S B (bd + 1) x y (min t (S - 1)))]
        at hsatl

/-- Transport of the goal-condition clauses from horizon `S` to the padded
assignment at horizon `L` (the final step `L - 1` is frozen at `S - 1`). -/
theorem goalTransport (N M S L B : Nat) (a : Nat → Bool)
    (hS : 1 ≤ S) (hSL : S ≤ L)
    (hsat : satCNF a (goalClauses N M S B) = true) :
    satCNF (padAssign N M S L B a) (goalClauses N M L B) = true := by
  rw [goalClauses, satCNF_flatMap_iff]
  intro x hx
  rw [List.mem_range] at hx
  rw [satCNF_flatMap_iff]
  intro y hy
  rw [List.mem_range] at hy
  rw [satCNF_map_iff]
  intro b hb
  rw [List.mem_range] at hb
  rw [goalClauses, satCNF_flatMap_iff] at hsat
  have h1 := hsat x (List.mem_range.mpr hx)
  rw [satCNF_flatMap_iff] at h1
  have h2 := h1 y (List.mem_range.mpr hy)
  rw [satCNF_map_iff] at h2
  have h3 := h2 b (List.mem_range.mpr hb)
  rw [satClause_iff] at h3 ⊢
  obtain ⟨l, hl, hsatl⟩ := h3
  have hl2 : l = -(var_box N M S B (b + 1) x y (S - 1) : Int) ∨
      l = (var_goal M x y : Int) := by simpa using hl
  rcases hl2 with rfl | rfl
  · refine ⟨-(var_box N M L B (b + 1) x y (L - 1) : Int), by simp, ?_⟩
    rw [satLit_neg _ _ (var_box_pos N M L B (b + 1) x y (L - 1)),
      padAssign_box N M S L B (b + 1) x y (L - 1) a (by omega) (by omega) hx
        hy (by omega),
      show min (L - 1) (S - 1) = S - 1 by omega]
    rwa [satLit_neg _ _ (var_box_pos N M S B (b + 1) x y (S - 1))] at hsatl
  · refine ⟨(var_goal M x y : Int), by simp, ?_⟩
    rw [satLit_pos _ _ (var_goal_pos M x y),
      padAssign_goal N M S L B x y a hx hy]
    rwa [satLit_pos _ _ (var_goal_pos M x y)] at hsatl

/-- Transport of the exactly-one-action clauses from horizon `S` to the
padded assignment at horizon `L` (padded steps take the stay action). -/
theorem actionTransport (N M S L B : Nat) (a : Nat → Bool)
    (hS : 1 ≤ S) (hSL : S ≤ L)
    (hsat : satCNF a (actionClauses N M S) = true) :
    satCNF (padAssign N M S L B a) (actionClauses N M L) = true := by
  rw [actionClauses, satCNF_flatMap_iff]
  intro t ht
  rw [List.mem_range] at ht
  rw [satCNF_append_iff]
  rcases Nat.lt_or_ge t S with htS | htS
  · rw [actionClauses, satCNF_flatMap_iff] at hsat
    have h1 := hsat t (List.mem_range.mpr htS)
    rw [satCNF_append_iff] at h1
    obtain ⟨hpairs, htot⟩ := h1
    constructor
    · rw [satCNF_flatMap_iff] at hpairs ⊢
      intro i hi
      have h2 := hpairs i hi
      rw [List.mem_range'_1] at hi
      rw [satCNF_map_iff] at h2 ⊢
      intro j hj
      have h3 := h2 j hj
      rw [List.mem_range'_1] at hj
      rw [satClause_iff] at h3 ⊢
      obtain ⟨l, hl, hsatl⟩ := h3
      have hl2 : l = -(var_move N M S i t : Int) ∨
          l = -(var_move N M S j t : Int) := by simpa using hl
      rcases hl2 with rfl | rfl
      · exact ⟨-(var_move N M L i t : Int), by simp,
          pad_neg_move N M S L B i t a (by omega) (by omega) (by omega) htS
            hsatl⟩
      · exact ⟨-(var_move N M L j t : Int), by simp,
          pad_neg_move N M S L B j t a (by omega) (by omega) (by omega) htS
            hsatl⟩
    · rw [satCNF_singleton_iff, satClause_iff] at htot ⊢
      obtain ⟨l, hl, hsatl⟩ := htot
      rw [List.mem_map] at hl
      obtain ⟨i, hi, rfl⟩ := hl
      rw [List.mem_range'_1] at hi
      exact ⟨(var_move N M L i t : Int),
        List.mem_map.mpr ⟨i, by rw [List.mem_range'_1]; omega, rfl⟩,
        pad_pos_move N M S L B i t a (by omega) (by omega) (by omega) htS
          hsatl⟩
  · constructor
    · rw [satCNF_flatMap_iff]
      intro i hi
      rw [List.mem_range'_1] at hi
      rw [satCNF_map_iff]
      intro j hj
      rw [List.mem_range'_1] at hj
      rw [satClause_iff]
      exact ⟨-(var_move N M L i t : Int), by simp,
        pad_neg_move_frozen N M S L B i t a (by omega) (by omega) (by omega)
          ht htS⟩
    · rw [satCNF_singleton_iff, satClause_iff]
      refine ⟨(var_move N M L 9 t : Int),
        List.mem_map.mpr ⟨9, by rw [List.mem_range'_1]; omega, rfl⟩, ?_⟩
      rw [satLit_pos _ _ (var_move_pos N M L 9 t (by omega)),
        padAssign_move N M S L B 9 t a (by omega) (by omega) ht,
        if_neg (by omega)]
      rfl

/-- Transport of the per-time uniqueness clauses from horizon `S` to the
padded assignment at horizon `L`. -/
theorem uniqueTransport (N M S L B : Nat) (a : Nat → Bool)
    (hS : 1 ≤ S) (hSL : S ≤ L)
    (hsat : satCNF a (uniqueClauses N M S B) = true) :
    satCNF (padAssign N M S L B a) (uniqueClauses N M L B) = true := by
  rw [uniqueClauses, satCNF_flatMap_iff]
  intro t ht
  rw [List.mem_range] at ht
  rw [uniqueClauses, satCNF_flatMap_iff] at hsat
  have h1 := hsat (min t (S - 1)) (List.mem_range.mpr (by omega))
  rw [satCNF_append_iff] at h1 ⊢
  obtain ⟨hplayer, hbox⟩ := h1
  constructor
  · rw [satCNF_cons_iff] at hplayer ⊢
    obtain ⟨hptot, hppair⟩ := hplayer
    constructor
    · rw [satClause_iff] at hptot ⊢
      obtain ⟨l, hl, hsatl⟩ := hptot
      unfold playerCells at hl
      rw [List.mem_flatMap] at hl
      obtain ⟨x, hxm, hl⟩ := hl
      rw [List.mem_map] at hl
      obtain ⟨y, hym, rfl⟩ := hl
      rw [List.mem_range] at hxm hym
      refine ⟨(var_player N M x y t : Int), ?_, ?_⟩
      · unfold playerCells
        rw [List.mem_flatMap]
        exact ⟨x, List.mem_range.mpr hxm,
          List.mem_map.mpr ⟨y, List.mem_range.mpr hym, rfl⟩⟩
      · rw [satLit_pos _ _ (var_player_pos N M x y t),
          padAssign_player N M S L B x y t a hxm hym ht]
        rwa [satLit_pos _ _ (var_player_pos N M x y (min t (S - 1)))] at hsatl
    · have hcellsL : playerCells N M t = (List.range (N * M)).map
          (fun k => (var_player N M (k / M) (k % M) t : Int)) := by
        unfold playerCells
        exact flatMap_range_map_eq N M _
      have hcellsS : playerCells N M (min t (S - 1)) =
          (List.range (N * M)).map
            (fun k => (var_player N M (k / M) (k % M) (min t (S - 1)) : Int)) := by
        unfold playerCells
        exact flatMap_range_map_eq N M _
      rw [hcellsL, pairwise_neg_sat_iff]
      rw [hcellsS, pairwise_neg_sat_iff] at hppair
      intro i j hij hj
      rw [List.length_map, List.length_range] at hj
      have hp := hppair i j hij
        (by rw [List.length_map, List.length_range]; exact hj)
      have hNM : 0 < N * M := by omega
      have hM1 : 0 < M := by
        rcases Nat.eq_zero_or_pos M with h0 | h0
        · rw [h0, Nat.mul_zero] at hNM
          omega
        · exact h0
      rw [getD_map_range _ _ _ (by omega), getD_map_range _ _ _ (by omega)]
        at hp ⊢
      have hiN : i / M < N := by
        rw [Nat.div_lt_iff_lt_mul hM1]
        have hlink : M * N = N * M := Nat.mul_comm M N
        omega
      have hjN : j / M < N := by
        rw [Nat.div_lt_iff_lt_mul hM1]
        have hlink : M * N = N * M := Nat.mul_comm M N
        omega
      rw [satLit_neg _ _ (var_player_pos N M (i / M) (i % M) t),
        satLit_neg _ _ (var_player_pos N M (j / M) (j % M) t),
        padAssign_player N M S L B (i / M) (i % M) t a hiN
          (Nat.mod_lt _ hM1) ht,
        padAssign_player N M S L B (j / M) (j % M) t a hjN
          (Nat.mod_lt _ hM1) ht]
      rwa [satLit_neg _ _ (var_player_pos N M (i / M) (i % M) (min t (S - 1))),
        satLit_neg _ _ (var_player_pos N M (j / M) (j % M) (min t (S - 1)))]
        at hp
  · rw [satCNF_flatMap_iff] at hbox ⊢
    intro b hb
    have h2 := hbox b hb
    rw [List.mem_range] at hb
    rw [satCNF_cons_iff] at h2 ⊢
    obtain ⟨hbtot, hbpair⟩ := h2
    constructor
    · rw [satClause_iff] at hbtot ⊢
      obtain ⟨l, hl, hsatl⟩ := hbtot
      unfold boxCells at hl
      rw [List.mem_flatMap] at hl
      obtain ⟨x, hxm, hl⟩ := hl
      rw [List.mem_map] at hl
      obtain ⟨y, hym, rfl⟩ := hl
      rw [List.mem_range] at hxm hym
      refine ⟨(var_box N M L B (b + 1) x y t : Int), ?_, ?_⟩
      · unfold boxCells
        rw [List.mem_flatMap]
        exact ⟨x, List.mem_range.mpr hxm,
          List.mem_map.mpr ⟨y, List.mem_range.mpr hym, rfl⟩⟩
      · rw [satLit_pos _ _ (var_box_pos N M L B (b + 1) x y t),
          padAssign_box N M S L B (b + 1) x y t a (by omega) (by omega) hxm
            hym ht]
        rwa [satLit_pos _ _
          (var_box_pos N M S B (b + 1) x y (min t (S - 1)))] at hsatl
    · have hcellsL : boxCells N M L B (b + 1) t = (List.range (N * M)).map
          (fun k => (var_box N M L B (b + 1) (k / M) (k % M) t : Int)) := by
        unfold boxCells
        exact flatMap_range_map_eq N M _
      have hcellsS : boxCells N M S B (b + 1) (min t (S - 1)) =
          (List.range (N * M)).map
            (fun k => (var_box N M S B (b + 1) (k / M) (k % M)
              (min t (S - 1)) : Int)) := by
        unfold boxCells
        exact flatMap_range_map_eq N M _
      rw [hcellsL, pairwise_neg_sat_iff]
      rw [hcellsS, pairwise_neg_sat_iff] at hbpair
      intro i j hij hj
      rw [List.length_map, List.length_range] at hj
      have hp := hbpair i j hij
        (by rw [List.length_map, List.length_range]; exact hj)
      have hNM : 0 < N * M := by omega
      have hM1 : 0 < M := by
        rcases Nat.eq_zero_or_pos M with h0 | h0
        · rw [h0, Nat.mul_zero] at hNM
          omega
        · exact h0
      rw [getD_map_range _ _ _ (by omega), getD_map_range _ _ _ (by omega)]
        at hp ⊢
      have hiN : i / M < N := by
        rw [Nat.div_lt_iff_lt_mul hM1]
        have hlink : M * N = N * M := Nat.mul_comm M N
        omega
      have hjN : j / M < N := by
        rw [Nat.div_lt_iff_lt_mul hM1]
        have hlink : M * N = N * M := Nat.mul_comm M N
        omega
      rw [satLit_neg _ _ (var_box_pos N M L B (b + 1) (i / M) (i % M) t),
        satLit_neg _ _ (var_box_pos N M L B (b + 1) (j / M) (j % M) t),
        padAssign_box N M S L B (b + 1) (i / M) (i % M) t a (by omega)
          (by omega) hiN (Nat.mod_lt _ hM1) ht,
        padAssign_box N M S L B (b + 1) (j / M) (j % M) t a (by omega)
          (by omega) hjN (Nat.mod_lt _ hM1) ht]
      rwa [satLit_neg _ _
        (var_box_pos N M S B (b + 1) (i / M) (i % M) (min t (S - 1))),
        satLit_neg _ _
          (var_box_pos N M S B (b + 1) (j / M) (j % M) (min t (S - 1)))] at hp

/-- Transport of the stay clauses from horizon `S` to the padded assignment
at horizon `L` (padded steps take the stay action and freeze positions, so
the clauses become tautological there). -/
theorem stayTransport (N M S L B : Nat) (a : Nat → Bool)
    (hS : 1 ≤ S) (hSL : S ≤ L)
    (hsat : satCNF a (stayClauses N M S B) = true) :
    satCNF (padAssign N M S L B a) (stayClauses N M L B) = true := by
  rw [stayClauses, satCNF_flatMap_iff]
  intro t htmem
  rw [List.mem_range'_1] at htmem
  have htL : t < L := by omega
  rw [satCNF_flatMap_iff]
  intro x hx
  rw [List.mem_range] at hx
  rw [satCNF_flatMap_iff]
  intro y hy
  rw [List.mem_range] at hy
  rw [satCNF_append_iff]
  rcases Nat.lt_or_ge t S with htS | htS
  · rw [stayClauses, satCNF_flatMap_iff] at hsat
    have h1 := hsat t (by rw [List.mem_range'_1]; omega)
    rw [satCNF_flatMap_iff] at h1
    have h2 := h1 x (List.mem_range.mpr hx)
    rw [satCNF_flatMap_iff] at h2
    have h3 := h2 y (List.mem_range.mpr hy)
    rw [satCNF_append_iff] at h3
    obtain ⟨hboxes, hplayer⟩ := h3
    constructor
    · rw [satCNF_map_iff] at hboxes ⊢
      intro b hb
      have h4 := hboxes b hb
      rw [List.mem_range] at hb
      rw [satClause_iff] at h4 ⊢
      obtain ⟨l, hl, hsatl⟩ := h4
      have hl2 : l = -(var_move N M S 9 t : Int) ∨
          l = -(var_box N M S B (b + 1) x y (t - 1) : Int) ∨
          l = (var_box N M S B (b + 1) x y t : Int) := by simpa using hl
      rcases hl2 with rfl | rfl | rfl
      · exact ⟨-(var_move N M L 9 t : Int), by simp,
          pad_neg_move N M S L B 9 t a (by omega) (by omega) htL htS hsatl⟩
      · exact ⟨-(var_box N M L B (b + 1) x y (t - 1) : Int), by simp,
          pad_neg_box N M S L B (b + 1) x y (t - 1) a (by omega) (by omega)
            hx hy (by omega) (by omega) hsatl⟩
      · exact ⟨(var_box N M L B (b + 1) x y t : Int), by simp,
          pad_pos_box N M S L B (b + 1) x y t a (by omega) (by omega) hx hy
            htL htS hsatl⟩
    · rw [satCNF_singleton_iff, satClause_iff] at hplayer ⊢
      obtain ⟨l, hl, hsatl⟩ := hplayer
      have hl2 : l = -(var_move N M S 9 t : Int) ∨
          l = -(var_player N M x y (t - 1) : Int) ∨
          l = (var_player N M x y t : Int) := by simpa using hl
      rcases hl2 with rfl | rfl | rfl
      · exact ⟨-(var_move N M L 9 t : Int), by simp,
          pad_neg_move N M S L B 9 t a (by omega) (by omega) htL htS hsatl⟩
      · exact ⟨-(var_player N M x y (t - 1) : Int), by simp,
          pad_neg_player N M S L B x y (t - 1) a hx hy (by omega) (by omega)
            hsatl⟩
      · exact ⟨(var_player N M x y t : Int), by simp,
          pad_pos_player N M S L B x y t a hx hy htL htS hsatl⟩
  · constructor
    · rw [satCNF_map_iff]
      intro b hb
      rw [List.mem_range] at hb
      rw [satClause_iff]
      cases hval : a (var_box N M S B (b + 1) x y (S - 1))
      · refine ⟨-(var_box N M L B (b + 1) x y (t - 1) : Int), by simp, ?_⟩
        rw [satLit_neg _ _ (var_box_pos N M L B (b + 1) x y (t - 1)),
          padAssign_box N M S L B (b + 1) x y (t - 1) a (by omega) (by omega)
            hx hy (by omega),
          show min (t - 1) (S - 1) = S - 1 by omega, hval]
        rfl
      · refine ⟨(var_box N M L B (b + 1) x y t : Int), by simp, ?_⟩
        rw [satLit_pos _ _ (var_box_pos N M L B (b + 1) x y t),
          padAssign_box N M S L B (b + 1) x y t a (by omega) (by omega) hx hy
            htL,
          show min t (S - 1) = S - 1 by omega, hval]
    · rw [satCNF_singleton_iff, satClause_iff]
      cases hval : a (var_player N M x y (S - 1))
      · refine ⟨-(var_player N M x y (t - 1) : Int), by simp, ?_⟩
        rw [satLit_neg _ _ (var_player_pos N M x y (t - 1)),
          padAssign_player N M S L B x y (t - 1) a hx hy (by omega),
          show min (t - 1) (S - 1) = S - 1 by omega, hval]
        rfl
      · refine ⟨(var_player N M x y t : Int), by simp, ?_⟩
        rw [satLit_pos _ _ (var_player_pos N M x y t),
          padAssign_player N M S L B x y t a hx hy htL,
          show min t (S - 1) = S - 1 by omega, hval]

/-- A satisfying assignment of the horizon-`S` Sokoban encoding yields, via
`padAssign`, a satisfying assignment of the horizon-`L` encoding for any
`L ≥ S`. -/
theorem encodeClauses_monotone (N M S L B : Nat) (p : Nat × Nat)
    (bs ws gs : List (Nat × Nat)) (a : Nat → Bool)
    (hS : 1 ≤ S) (hSL : S ≤ L) (hp1 : p.1 < N) (hp2 : p.2 < M)
    (hbs : ∀ b, b < B → (bs.getD b (0, 0)).1 < N ∧ (bs.getD b (0, 0)).2 < M)
    (hws : ∀ q ∈ ws, q.1 < N ∧ q.2 < M)
    (hsat : satCNF a (encodeClauses N M S B p bs ws gs) = true) :
    satCNF (padAssign N M S L B a) (encodeClauses N M L B p bs ws gs) =
      true := by
  rw [encodeClauses, satCNF_append_iff, satCNF_append_iff, satCNF_append_iff,
    satCNF_append_iff, satCNF_append_iff, satCNF_append_iff,
    satCNF_append_iff] at hsat
  obtain ⟨⟨⟨⟨⟨⟨⟨hI, hMv⟩, hP⟩, hO⟩, hG⟩, hA⟩, hU⟩, hSt⟩ := hsat
  rw [encodeClauses, satCNF_append_iff, satCNF_append_iff, satCNF_append_iff,
    satCNF_append_iff, satCNF_append_iff, satCNF_append_iff,
    satCNF_append_iff]
  exact ⟨⟨⟨⟨⟨⟨⟨initTransport N M S L B p bs ws gs a hS hSL hp1 hp2 hbs hws hI,
    moveTransport N M S L B a hS hSL hMv⟩,
    pushTransport N M S L B a hS hSL hP⟩,
    overlapTransport N M S L B a hS hSL hO⟩,
    goalTransport N M S L B a hS hSL hG⟩,
    actionTransport N M S L B a hS hSL hA⟩,
    uniqueTransport N M S L B a hS hSL hU⟩,
    stayTransport N M S L B a hS hSL hSt⟩

/-- `parseCell` preserves in-bounds-ness of the parsed player, boxes and
walls. -/
theorem parseCell_inv (g : List (List Char)) (N M x y : Nat) (res : ParseRes)
    (hx : x < N) (hy : y < M)
    (hres : (∀ q, res.player = some q → q.1 < N ∧ q.2 < M) ∧
      (∀ q ∈ res.boxes, q.1 < N ∧ q.2 < M) ∧
      (∀ q ∈ res.walls, q.1 < N ∧ q.2 < M)) :
    (∀ q, (parseCell g res x y).player = some q → q.1 < N ∧ q.2 < M) ∧
    (∀ q ∈ (parseCell g res x y).boxes, q.1 < N ∧ q.2 < M) ∧
    (∀ q ∈ (parseCell g res x y).walls, q.1 < N ∧ q.2 < M) := by
  obtain ⟨hp, hb, hw⟩ := hres
  unfold parseCell
  split_ifs
  · refine ⟨?_, hb, hw⟩
    intro q hq
    have hq2 : (x, y) = q := by simpa using hq
    subst hq2
    exact ⟨hx, hy⟩
  · refine ⟨hp, ?_, hw⟩
    intro q hq
    rw [show ({ res with boxes := res.boxes ++ [(x, y)] } : ParseRes).boxes =
      res.boxes ++ [(x, y)] from rfl, List.mem_append] at hq
    rcases hq with hq | hq
    · exact hb q hq
    · have hq2 : q = (x, y) := by simpa using hq
      subst hq2
      exact ⟨hx, hy⟩
  · exact ⟨hp, hb, hw⟩
  · refine ⟨hp, hb, ?_⟩
    intro q hq
    rw [show ({ res with walls := res.walls ++ [(x, y)] } : ParseRes).walls =
      res.walls ++ [(x, y)] from rfl, List.mem_append] at hq
    rcases hq with hq | hq
    · exact hw q hq
    · have hq2 : q = (x, y) := by simpa using hq
      subst hq2
      exact ⟨hx, hy⟩
  · exact ⟨hp, hb, hw⟩

/-- The inner scan row of `_parse_grid` preserves the in-bounds invariant. -/
theorem parseRow_inv (g : List (List Char)) (N M x : Nat) (hx : x < N)
    (ys : List Nat) (hys : ∀ y ∈ ys, y < M) (res : ParseRes)
    (h : (∀ q, res.player = some q → q.1 < N ∧ q.2 < M) ∧
      (∀ q ∈ res.boxes, q.1 < N ∧ q.2 < M) ∧
      (∀ q ∈ res.walls, q.1 < N ∧ q.2 < M)) :
    (∀ q, (ys.foldl (fun res y => parseCell g res x y) res).player = some q →
      q.1 < N ∧ q.2 < M) ∧
    (∀ q ∈ (ys.foldl (fun res y => parseCell g res x y) res).boxes,
      q.1 < N ∧ q.2 < M) ∧
    (∀ q ∈ (ys.foldl (fun res y => parseCell g res x y) res).walls,
      q.1 < N ∧ q.2 < M) := by
  induction ys generalizing res with
  | nil => exact h
  | cons y ys ih =>
    rw [List.foldl_cons]
    exact ih (fun z hz => hys z (by simp [hz])) _
      (parseCell_inv g N M x y res hx (hys y (by simp)) h)

/-- `_parse_grid` only produces in-bounds player, box and wall positions. -/
theorem parseGrid_inbounds (g : List (List Char)) (N M : Nat) :
    (∀ q, (parseGrid g N M).player = some q → q.1 < N ∧ q.2 < M) ∧
    (∀ q ∈ (parseGrid g N M).boxes, q.1 < N ∧ q.2 < M) ∧
    (∀ q ∈ (parseGrid g N M).walls, q.1 < N ∧ q.2 < M) := by
  unfold parseGrid
  have hmain : ∀ (xs : List Nat), (∀ x ∈ xs, x < N) → ∀ (res : ParseRes),
      ((∀ q, res.player = some q → q.1 < N ∧ q.2 < M) ∧
        (∀ q ∈ res.boxes, q.1 < N ∧ q.2 < M) ∧
        (∀ q ∈ res.walls, q.1 < N ∧ q.2 < M)) →
      (∀ q, (xs.foldl (fun res x =>
          (List.range M).foldl (fun res y => parseCell g res x y) res)
          res).player = some q → q.1 < N ∧ q.2 < M) ∧
      (∀ q ∈ (xs.foldl (fun res x =>
          (List.range M).foldl (fun res y => parseCell g res x y) res)
          res).boxes, q.1 < N ∧ q.2 < M) ∧
      (∀ q ∈ (xs.foldl (fun res x =>
          (List.range M).foldl (fun res y => parseCell g res x y) res)
          res).walls, q.1 < N ∧ q.2 < M) := by
    intro xs
    induction xs with
    | nil => intro _ res h; exact h
    | cons x xs ih =>
      intro hxs res h
      rw [List.foldl_cons]
      exact ih (fun z hz => hxs z (by simp [hz]))
        _ (parseRow_inv g N M x (hxs x (by simp)) (List.range M)
          (fun y hy => List.mem_range.mp hy) res h)
  refine hmain (List.range N) (fun x hx => List.mem_range.mp hx) _ ⟨?_, ?_, ?_⟩
  · intro q hq
    simp at hq
  · intro q hq
    simp at hq
  · intro q hq
    simp at hq

/-- C4: for every grid and all `k ≤ T`, if the horizon-`k` Sokoban CNF built
by `solve_sokoban(grid, k)` is satisfiable then so is the horizon-`T` CNF
built by `solve_sokoban(grid, T)` — the stay action lets any shorter plan be
padded to the longer horizon. -/
theorem horizon_monotone (grid : List (List Char)) (k T : Nat) (hkT : k ≤ T)
    (cnfk : List (List Int)) (a : Nat → Bool)
    (henc : (mkEncoder grid k).encode = some cnfk)
    (hsat : satCNF a cnfk = true) :
    ∃ cnfT, (mkEncoder grid T).encode = some cnfT ∧
      ∃ a2, satCNF a2 cnfT = true := by
  have hek : (mkEncoder grid k).encode =
      match (parseGrid grid grid.length (grid.getD 0 []).length).player with
      | none => none
      | some p => some (encodeClauses grid.length (grid.getD 0 []).length
          (k + 1)
          (parseGrid grid grid.length (grid.getD 0 []).length).boxes.length p
          (parseGrid grid grid.length (grid.getD 0 []).length).boxes
          (parseGrid grid grid.length (grid.getD 0 []).length).walls
          (parseGrid grid grid.length (grid.getD 0 []).length).goals) := rfl
  have heT : (mkEncoder grid T).encode =
      match (parseGrid grid grid.length (grid.getD 0 []).length).player with
      | none => none
      | some p => some (encodeClauses grid.length (grid.getD 0 []).length
          (T + 1)
          (parseGrid grid grid.length (grid.getD 0 []).length).boxes.length p
          (parseGrid grid grid.length (grid.getD 0 []).length).boxes
          (parseGrid grid grid.length (grid.getD 0 []).length).walls
          (parseGrid grid grid.length (grid.getD 0 []).length).goals) := rfl
  rw [hek] at henc
  cases hps : (parseGrid grid grid.length (grid.getD 0 []).length).player with
  | none =>
    rw [hps] at henc
    exact absurd henc (by simp)
  | some p =>
    rw [hps] at henc
    have hcnfk : encodeClauses grid.length (grid.getD 0 []).length (k + 1)
        (parseGrid grid grid.length (grid.getD 0 []).length).boxes.length p
        (parseGrid grid grid.length (grid.getD 0 []).length).boxes
        (parseGrid grid grid.length (grid.getD 0 []).length).walls
        (parseGrid grid grid.length (grid.getD 0 []).length).goals = cnfk :=
      by injection henc
    obtain ⟨hpb, hbb, hwb⟩ :=
      parseGrid_inbounds grid grid.length (grid.getD 0 []).length
    have hp := hpb p hps
    refine ⟨encodeClauses grid.length (grid.getD 0 []).length (T + 1)
      (parseGrid grid grid.length (grid.getD 0 []).length).boxes.length p
      (parseGrid grid grid.length (grid.getD 0 []).length).boxes
      (parseGrid grid grid.length (grid.getD 0 []).length).walls
      (parseGrid grid grid.length (grid.getD 0 []).length).goals,
      by rw [heT, hps], ?_⟩
    refine ⟨padAssign grid.length (grid.getD 0 []).length (k + 1) (T + 1)
      (parseGrid grid grid.length (grid.getD 0 []).length).boxes.length a, ?_⟩
    apply encodeClauses_monotone grid.length (grid.getD 0 []).length (k + 1)
      (T + 1)
      (parseGrid grid grid.length (grid.getD 0 []).length).boxes.length p
      (parseGrid grid grid.length (grid.getD 0 []).length).boxes
      (parseGrid grid grid.length (grid.getD 0 []).length).walls
      (parseGrid grid grid.length (grid.getD 0 []).length).goals a
      (by omega) (by omega) hp.1 hp.2
    · intro b hb
      apply hbb
      have hget : (parseGrid grid grid.length
          (grid.getD 0 []).length).boxes.getD b (0, 0) =
          (parseGrid grid grid.length (grid.getD 0 []).length).boxes.get
            ⟨b, hb⟩ := by
        rw [List.getD_eq_getElem?_getD, List.getElem?_eq_getElem hb]
        rfl
      rw [hget]
      exact List.get_mem _ b hb
    · intro q hq
      exact hwb q hq
    · rw [hcnfk]
      exact hsat

theorem horizon_monotone_witness :
    ∃ cnfT, (mkEncoder [['P']] 1).encode = some cnfT ∧
      ∃ a2, satCNF a2 cnfT = true :=
  horizon_monotone [['P']] 0 1 (by decide)
    (encodeClauses 1 1 1 0 (0, 0) [] [] []) (fun v => v == 2 || v == 11)
    (by decide) (by decide)

end Sokoban
